import Mathlib

/-!
Shallow embedding of the starbreeder-sdk artifact-transfer pipeline
(`src/starbreeder_sdk/api/routes/utils.py`, `initialize.py`, `generate.py`,
`evaluate.py`) for checking the natural-language specification.

Conventions of the embedding:
* Filesystem paths are lists of path segments (`os.path.join a b` is `a ++ [b]`).
* The per-request effects (filesystem, HTTP calls, module invocations) run in an
  explicit state-passing monad `M A = St → Except PyErr A × St`; a Python
  exception is an `Except.error`.  `try/except` is `M.tryCatch`, `try/finally`
  is `M.tryFinally`.
* External behavior (HTTP responses, the pluggable module, archive contents)
  is an oracle `Env` the definitions are parameterized by.
* `asyncio.gather(*tasks)` is modelled sequentially: all tasks run to
  completion (siblings of a failed task are not cancelled) and, because the
  source never passes `return_exceptions=True`, the combined result re-raises
  the first exception in task order (`firstErrorOrList`).
* `tempfile.mkdtemp` is given unique names from a counter; the names are
  single path segments so no temporary directory nests inside another,
  mirroring sibling directories under the system temp root.
-/

abbrev FsPath := List String

/-- Python-level exceptions that the pipeline can raise or catch. -/
inductive PyErr where
  | httpStatus (code : Nat)
  | transport (msg : String)
  | readError (msg : String)
  | fileNotFound (msg : String)
  | fileExists (p : FsPath)
  | keyError (k : String)
  | indexError
  | httpExc (status : Nat) (detail : String)
  | processing (msg : String)
  | osError (msg : String)
deriving DecidableEq, Repr

/-- `str(e)` rendering used when handlers embed an exception in a message. -/
def PyErr.str : PyErr → String
  | .httpStatus c => "HTTP status error " ++ toString c
  | .transport m => m
  | .readError m => m
  | .fileNotFound m => m
  | .fileExists _ => "File exists"
  | .keyError k => k
  | .indexError => "list index out of range"
  | .httpExc _ d => d
  | .processing m => m
  | .osError m => m

/-- Where a file in the model came from; determines how `unpack_archive`
behaves on it. -/
inductive FileSrc where
  | downloaded (url : String)
  | packed (sourceDir : FsPath)
  | phenotype
deriving DecidableEq, Repr

structure FileEntry where
  path : FsPath
  size : Nat
  src : FileSrc
deriving DecidableEq, Repr

/-- Observable actions of a run: directory creation/removal, HTTP requests and
module invocations, in the order they were issued. -/
inductive Event where
  | mkdtempE (p : FsPath)
  | makedirsE (p : FsPath)
  | rmtreeE (p : FsPath)
  | httpGet (url : String)
  | httpPut (url : String) (source : FsPath) (contentType : String) (contentLength : Nat)
  | moduleConfig (name : String)
  | moduleInitialize (dirs : List (String × FsPath))
  | moduleGenerate (parentDirs childDirs : List FsPath)
  | moduleEvaluate (genotypeDirs phenotypeDirs : List FsPath)
deriving DecidableEq, Repr

def Event.isHttpPut : Event → Bool
  | .httpPut _ _ _ _ => true
  | _ => false

def Event.isModuleGenerate : Event → Bool
  | .moduleGenerate _ _ => true
  | _ => false

def Event.isModuleEvaluate : Event → Bool
  | .moduleEvaluate _ _ => true
  | _ => false

@[ext]

structure St where
  counter : Nat
  dirs : List FsPath
  files : List FileEntry
  deleted : List FsPath
  events : List Event
deriving DecidableEq, Repr

def St.init : St := ⟨0, [], [], [], []⟩

def St.hasFile (s : St) (p : FsPath) : Bool := s.files.any (fun fe => fe.path == p)

/-- The effect monad: explicit state passing, Python exceptions as errors.
State changes made before an exception was raised are kept. -/
def M (A : Type) : Type := St → Except PyErr A × St

def M.pure (a : A) : M A := fun s => (.ok a, s)

def M.bind (x : M A) (f : A → M B) : M B := fun s =>
  match x s with
  | (.ok a, s1) => f a s1
  | (.error e, s1) => (.error e, s1)

def M.throw (e : PyErr) : M A := fun s => (.error e, s)

/-- `try: x except Exception as e: h e` -/
def M.tryCatch (x : M A) (h : PyErr → M A) : M A := fun s =>
  match x s with
  | (.ok a, s1) => (.ok a, s1)
  | (.error e, s1) => h e s1

/-- `try: x except Exception as e: return h e else continue with k` —
the shape of `handle_evaluate`'s config-loading block. -/
def M.attempt (x : M A) (k : A → M B) (h : PyErr → M B) : M B := fun s =>
  match x s with
  | (.ok a, s1) => k a s1
  | (.error e, s1) => h e s1

/-- `try: x finally: fin` — an exception raised by `fin` replaces the body's
outcome, exactly as in Python. -/
def M.tryFinally (x : M A) (fin : M Unit) : M A := fun s =>
  match x s with
  | (.ok a, s1) =>
    match fin s1 with
    | (.ok _, s2) => (.ok a, s2)
    | (.error e, s2) => (.error e, s2)
  | (.error e, s1) =>
    match fin s1 with
    | (.ok _, s2) => (.error e, s2)
    | (.error e2, s2) => (.error e2, s2)

def M.emit (e : Event) : M Unit := fun s =>
  (.ok (), { s with events := s.events ++ [e] })

/-- `os.makedirs(p, exist_ok=exist_ok)`: raises `FileExistsError` when the
directory exists and `exist_ok` is false. -/
def makedirs (exist_ok : Bool) (p : FsPath) : M Unit := fun s =>
  if p ∈ s.dirs then
    (if exist_ok then .ok () else .error (.fileExists p),
     { s with events := s.events ++ [.makedirsE p] })
  else
    (.ok (), { s with dirs := s.dirs ++ [p], events := s.events ++ [.makedirsE p] })

/-- Name of the `n`-th temporary directory created by `tempfile.mkdtemp`:
a fresh sibling directory under the system temp root. -/
def tmpDir (n : Nat) : FsPath := ["tmp" ++ String.mk (List.replicate n 'x')]

def mkdtemp : M FsPath := fun s =>
  (.ok (tmpDir s.counter),
   { s with counter := s.counter + 1,
            dirs := s.dirs ++ [tmpDir s.counter],
            events := s.events ++ [.mkdtempE (tmpDir s.counter)] })

/-- `shutil.rmtree(p, ignore_errors=ignore_errors)`: recursively removes the
subtree rooted at `p`; `fails` says whether the underlying deletion would
raise, which `ignore_errors=True` swallows. -/
def rmtree (ignore_errors fails : Bool) (p : FsPath) : M Unit := fun s =>
  ((if fails && !ignore_errors then .error (.osError "rmtree failed") else .ok ()),
   { s with dirs := s.dirs.filter (fun d => !(p.isPrefixOf d)),
            files := s.files.filter (fun fe => !(p.isPrefixOf fe.path)),
            deleted := s.deleted ++ [p],
            events := s.events ++ [.rmtreeE p] })

def addFile (fe : FileEntry) : M Unit := fun s =>
  (.ok (), { s with files := s.files ++ [fe] })

/-- `aiofiles.os.remove` on a path known to exist. -/
def removeFile (p : FsPath) : M Unit := fun s =>
  (.ok (), { s with files := s.files.eraseP (fun fe => fe.path == p) })

/-- `aiofiles.os.path.exists` (used on regular files only in this pipeline). -/
def aexists (p : FsPath) : M Bool := fun s => (.ok (s.hasFile p), s)

def isdir (p : FsPath) : M Bool := fun s => (.ok (decide (p ∈ s.dirs)), s)

/-- `aiofiles.os.stat(p).st_size`. -/
def stat (p : FsPath) : M Nat := fun s =>
  match s.files.find? (fun fe => fe.path == p) with
  | some fe => (.ok fe.size, s)
  | none => (.error (.fileNotFound "stat: no such file"), s)

/-! ### Module configuration (`core/module_config.py`) and request schemas
(`schemas.py`).  Python dicts are ordered association lists here. -/

structure InitializeRootIndividualConfig where
  method : String
deriving DecidableEq, Repr

structure InitializeConfig where
  root_individuals : List (String × InitializeRootIndividualConfig)
deriving DecidableEq, Repr

structure EvaluatePhenotypeConfig where
  name : String
  content_type : String
deriving DecidableEq, Repr

structure EvaluateConfig where
  phenotype : List (String × EvaluatePhenotypeConfig)
deriving DecidableEq, Repr

structure GenerateConfig where
  population_size : Nat
deriving DecidableEq, Repr

/-- `Config` from `core/module_config.py`; the `initialize` section is named
`initialize_` here because `initialize` is a Lean keyword. -/
structure Config where
  initialize_ : InitializeConfig
  evaluate : EvaluateConfig
  generate : GenerateConfig
deriving DecidableEq, Repr

structure InitializeRootIndividualInput where
  id : String
  key : String
  genotype_put_url : String
deriving DecidableEq, Repr

structure InitializeRequest where
  config_name : String
  root_individuals : List InitializeRootIndividualInput
deriving DecidableEq, Repr

structure InitializeRootIndividualOutput where
  id : String
  parent_ids : List String
deriving DecidableEq, Repr

structure InitializeResponse where
  root_individuals : List InitializeRootIndividualOutput
deriving DecidableEq, Repr

structure EvaluateIndividualInput where
  id : String
  genotype_get_url : String
  phenotype_put_urls : List (String × String)
deriving DecidableEq, Repr

structure EvaluateRequest where
  config_name : String
  individuals : List EvaluateIndividualInput
deriving DecidableEq, Repr

structure EvaluateIndividualOutput where
  id : String
  status : String
  message : Option String
deriving DecidableEq, Repr

structure EvaluateResponse where
  individuals : List EvaluateIndividualOutput
deriving DecidableEq, Repr

structure GenerateParentIndividualInput where
  id : String
  genotype_get_url : String
deriving DecidableEq, Repr

structure GenerateChildIndividualInput where
  id : String
  genotype_put_url : String
deriving DecidableEq, Repr

structure GenerateRequest where
  config_name : String
  parent_individuals : List GenerateParentIndividualInput
  child_individuals : List GenerateChildIndividualInput
deriving DecidableEq, Repr

structure GenerateChildIndividualOutput where
  id : String
  parent_ids : List String
deriving DecidableEq, Repr

structure GenerateResponse where
  child_individuals : List GenerateChildIndividualOutput
deriving DecidableEq, Repr

/-! ### The environment oracle: remote store and pluggable module behavior. -/

/-- Joint behavior of `GET url` and unpacking the archive it serves. -/
inductive DlOutcome where
  | httpError (code : Nat)
  | midStream (msg : String)
  | extractError (msg : String)
  | noGenotype
  | ok
deriving DecidableEq, Repr

/-- The error `download_and_unpack_genotype` raises for each failing outcome. -/
def dlErr : DlOutcome → PyErr
  | .httpError c => .httpStatus c
  | .midStream m => .transport m
  | .extractError m => .readError m
  | .noGenotype => .fileNotFound "genotype/ directory not found in tar archive."
  | .ok => .osError "unreachable"

structure Env where
  dl : String → DlOutcome
  dlSize : String → Nat
  putStatus : String → Nat
  packSize : FsPath → Nat
  moduleConfigResult : String → Except PyErr Config
  moduleInitialize : List (String × FsPath) → Except PyErr Unit
  moduleGenerate : List FsPath → List FsPath → Except PyErr (List (List Nat))
  moduleEvaluate : List FsPath → List FsPath → Except PyErr Unit
  phen : FsPath → String → Option Nat

/-! ### `api/routes/utils.py` -/

/-- `get_config_from_request`: loads the named config through the module and
maps failures to `HTTPException`s (404 for a missing file, 400 otherwise; the
503-style missing `app.state.configs_dir` branch is outside this model, whose
application state is always configured). -/
def get_config_from_request (env : Env) (config_name : String) : M Config :=
  M.bind (M.emit (.moduleConfig config_name)) fun _ =>
    match env.moduleConfigResult config_name with
    | .ok c => M.pure c
    | .error (.fileNotFound _) =>
      M.throw (.httpExc 404 ("Config file " ++ config_name ++ " not found."))
    | .error e =>
      M.throw (.httpExc 400 ("Failed to load or validate config file: " ++ e.str))

/-- `download_file_streamed`: `GET url` streamed into `target_path`.  A
non-success status raises before any byte is written; a mid-stream transport
failure leaves a partial file behind. -/
def download_file_streamed (env : Env) (url : String) (target_path : FsPath) : M Unit :=
  M.bind (M.emit (.httpGet url)) fun _ =>
    match env.dl url with
    | .httpError c => M.throw (.httpStatus c)
    | .midStream m =>
      M.bind (addFile ⟨target_path, env.dlSize url, .downloaded url⟩) fun _ =>
        M.throw (.transport m)
    | _ => addFile ⟨target_path, env.dlSize url, .downloaded url⟩

/-- `upload_file_streamed`: stats the source file, issues a `PUT` whose
headers carry the supplied content type and the stat size as Content-Length,
and raises `HTTPStatusError` unless the response status is a success. -/
def upload_file_streamed (env : Env) (url : String) (source_path : FsPath)
    (content_type : String) : M Unit :=
  M.bind (stat source_path) fun file_size =>
  M.bind (M.emit (.httpPut url source_path content_type file_size)) fun _ =>
    if 200 ≤ env.putStatus url ∧ env.putStatus url < 300 then M.pure ()
    else M.throw (.httpStatus (env.putStatus url))

/-- `manage_tmp_dir`: create a fresh temporary directory, run the body, and
always `shutil.rmtree(..., ignore_errors=True)` it afterwards.  `cleanupFails`
says whether the deletion itself would fail. -/
def manage_tmp_dir (cleanupFails : Bool) (body : FsPath → M A) : M A :=
  M.bind mkdtemp fun tmp_dir =>
    M.tryFinally (body tmp_dir) (rmtree true cleanupFails tmp_dir)

/-- `shutil.unpack_archive(file, target, "tar")`.  What extraction yields is
determined by where the archive file came from: a downloaded archive behaves
per the oracle for its URL, a packed one always contains `genotype/`. -/
def unpack_archive (env : Env) (file target : FsPath) : M Unit := fun s =>
  match s.files.find? (fun fe => fe.path == file) with
  | none => (.error (.fileNotFound "unpack_archive: no such archive"), s)
  | some fe =>
    match fe.src with
    | .downloaded url =>
      match env.dl url with
      | .extractError m => (.error (.readError m), s)
      | .midStream m => (.error (.readError m), s)
      | .httpError _ => (.error (.readError "corrupt archive"), s)
      | .noGenotype => (.ok (), s)
      | .ok => (.ok (), { s with dirs := s.dirs ++ [target ++ ["genotype"]] })
    | .packed _ => (.ok (), { s with dirs := s.dirs ++ [target ++ ["genotype"]] })
    | .phenotype => (.error (.readError "not an archive"), s)

/-- `shutil.make_archive(base_name, "tar", root_dir, base_dir)`: fails when
`root_dir/base_dir` does not exist, else produces `base_name.tar`. -/
def make_archive (env : Env) (base_name root_dir : FsPath) (base_dir : String) : M FsPath :=
  fun s =>
    if (root_dir ++ [base_dir]) ∈ s.dirs then
      let ap := base_name.dropLast ++ [base_name.getLastD "" ++ ".tar"]
      (.ok ap, { s with files := s.files ++ [⟨ap, env.packSize root_dir, .packed root_dir⟩] })
    else
      (.error (.fileNotFound "make_archive: base_dir not found"), s)

/-- `pack_and_upload_genotype`: archive `source_dir/genotype` inside a fresh
temporary directory and stream it to `put_url`. -/
def pack_and_upload_genotype (env : Env) (cleanupFails : Bool)
    (source_dir : FsPath) (put_url : String) : M Unit :=
  manage_tmp_dir cleanupFails fun tmp_dir =>
    M.bind (make_archive env (tmp_dir ++ ["genotype"]) source_dir "genotype") fun archive_path =>
      upload_file_streamed env put_url archive_path "application/x-tar"

/-- `download_and_unpack_genotype`: stream the archive to
`target_dir/genotype.tar.tmp`, unpack it, always delete the temporary archive,
then require `target_dir/genotype` to exist. -/
def download_and_unpack_genotype (env : Env) (get_url : String) (target_dir : FsPath) : M FsPath :=
  let tmp_file := target_dir ++ ["genotype.tar.tmp"]
  M.bind
    (M.tryFinally
      (M.bind (download_file_streamed env get_url tmp_file) fun _ =>
        unpack_archive env tmp_file target_dir)
      (M.bind (aexists tmp_file) fun ex =>
        if ex then removeFile tmp_file else M.pure ()))
    fun _ =>
      M.bind (isdir (target_dir ++ ["genotype"])) fun ok =>
        if ok then M.pure (target_dir ++ ["genotype"])
        else M.throw (.fileNotFound "genotype/ directory not found in tar archive.")

/-- Run every task to completion in order, collecting each outcome; no task
is cancelled by a sibling's failure. -/
def runAll : List (M A) → St → List (Except PyErr A) × St
  | [], s => ([], s)
  | t :: ts, s =>
    let r := t s
    let rs := runAll ts r.2
    (r.1 :: rs.1, rs.2)

/-- How `asyncio.gather` combines outcomes when `return_exceptions` is left at
its default `False`: the first exception is re-raised, the per-task outcome
list is lost. -/
def firstErrorOrList : List (Except PyErr A) → Except PyErr (List A)
  | [] => .ok []
  | .error e :: _ => .error e
  | .ok a :: rs =>
    match firstErrorOrList rs with
    | .ok l => .ok (a :: l)
    | .error e => .error e

/-- `await asyncio.gather(*tasks)` (no `return_exceptions=True` anywhere in
this repository). -/
def asyncio_gather (ts : List (M A)) : M (List A) := fun s =>
  let r := runAll ts s
  (firstErrorOrList r.1, r.2)

/-- `pack_and_upload_genotypes`: gather a pack-and-upload task per pair. -/
def pack_and_upload_genotypes (env : Env) (cleanupFails : Bool)
    (source_destination_pairs : List (FsPath × String)) : M Unit :=
  M.bind
    (asyncio_gather (source_destination_pairs.map fun pr =>
      pack_and_upload_genotype env cleanupFails pr.1 pr.2))
    fun _ => M.pure ()

/-- `download_and_unpack_genotypes`: gather a download task per pair.  The
source annotates the result `list[str | Exception]`, but the gather call lacks
`return_exceptions=True`, so any failure is re-raised here instead of being
returned in the list. -/
def download_and_unpack_genotypes (env : Env)
    (source_destination_pairs : List (String × FsPath)) : M (List FsPath) :=
  asyncio_gather (source_destination_pairs.map fun pr =>
    download_and_unpack_genotype env pr.1 pr.2)

def alookup : List (String × B) → String → Option B
  | [], _ => none
  | (k0, v) :: rest, k => if k0 = k then some v else alookup rest k

/-- Build the upload task list of `upload_phenotype`: one task per configured
phenotype key that has a destination URL and whose file exists on disk. -/
def buildPhenTasks (env : Env) (phenotype_dir : FsPath) (put_urls : List (String × String)) :
    List (String × EvaluatePhenotypeConfig) → M (List (M Unit))
  | [] => M.pure []
  | (key, fc) :: rest =>
    match alookup put_urls key with
    | none => buildPhenTasks env phenotype_dir put_urls rest
    | some url =>
      M.bind (aexists (phenotype_dir ++ [fc.name])) fun ex =>
      M.bind (buildPhenTasks env phenotype_dir put_urls rest) fun ts =>
        M.pure
          (if ex then
            upload_file_streamed env url (phenotype_dir ++ [fc.name]) fc.content_type :: ts
          else ts)

/-- `upload_phenotype`: upload the configured phenotype files of one
individual (`if tasks: await asyncio.gather(*tasks)`). -/
def upload_phenotype (env : Env) (phenotype_dir : FsPath)
    (put_urls : List (String × String)) (config : Config) : M Unit :=
  M.bind (buildPhenTasks env phenotype_dir put_urls config.evaluate.phenotype) fun tasks =>
    if tasks.isEmpty then M.pure ()
    else M.bind (asyncio_gather tasks) fun _ => M.pure ()

/-- `upload_phenotypes`: one `upload_phenotype` task per individual. -/
def upload_phenotypes (env : Env)
    (source_destination_pairs : List (FsPath × List (String × String)))
    (config : Config) : M Unit :=
  let tasks := source_destination_pairs.map fun pr => upload_phenotype env pr.1 pr.2 config
  if tasks.isEmpty then M.pure ()
  else M.bind (asyncio_gather tasks) fun _ => M.pure ()

/-! ### Module invocation adapters (`asyncio.to_thread(request.app.state.module....)`) -/

def module_initialize_call (env : Env) (m : List (String × FsPath)) : M Unit :=
  M.bind (M.emit (.moduleInitialize m)) fun _ =>
    match env.moduleInitialize m with
    | .ok _ => M.pure ()
    | .error e => M.throw e

def module_generate_call (env : Env) (parentDirs childDirs : List FsPath) :
    M (List (List Nat)) :=
  M.bind (M.emit (.moduleGenerate parentDirs childDirs)) fun _ =>
    match env.moduleGenerate parentDirs childDirs with
    | .ok parentage => M.pure parentage
    | .error e => M.throw e

/-- On success the module writes the phenotype files declared in the config
into each phenotype directory; which of them appear (and their sizes) is the
oracle `env.phen`. -/
def writePhenDir (env : Env) (d : FsPath) :
    List (String × EvaluatePhenotypeConfig) → M Unit
  | [] => M.pure ()
  | (_, fc) :: rest =>
    M.bind
      (match env.phen d fc.name with
       | some n => addFile ⟨d ++ [fc.name], n, .phenotype⟩
       | none => M.pure ())
      fun _ => writePhenDir env d rest

def writePhenFiles (env : Env) (config : Config) : List FsPath → M Unit
  | [] => M.pure ()
  | d :: ds =>
    M.bind (writePhenDir env d config.evaluate.phenotype) fun _ =>
      writePhenFiles env config ds

def module_evaluate_call (env : Env) (genotypeDirs phenotypeDirs : List FsPath)
    (config : Config) : M Unit :=
  M.bind (M.emit (.moduleEvaluate genotypeDirs phenotypeDirs)) fun _ =>
    match env.moduleEvaluate genotypeDirs phenotypeDirs with
    | .ok _ => writePhenFiles env config phenotypeDirs
    | .error e => M.throw e

/-! ### `/initialize` (`api/routes/initialize.py`, source symbol
`handle_initialize`; the name carries a `_route` suffix here because
`initialize` is a Lean keyword). -/

/-- Step 3 of `handle_initialize`: create `tmp_dir/key/genotype` per root and
collect the `genotype_dirs_map` passed to the module (a dict keyed by the root
key; duplicates would make `os.makedirs` raise first, so plain consing is
faithful). -/
def initMkDirs (tmp_dir : FsPath) : List InitializeRootIndividualInput →
    M (List (String × FsPath))
  | [] => M.pure []
  | ind :: rest =>
    let genotype_dir := tmp_dir ++ [ind.key, "genotype"]
    M.bind (makedirs false genotype_dir) fun _ =>
    M.bind (initMkDirs tmp_dir rest) fun m =>
      M.pure ((ind.key, genotype_dir) :: m)

/-- The `async with manage_tmp_dir()` block of `handle_initialize` (steps
3-5 inside its try/except). -/
def initialize_with_block (env : Env) (cleanupFails : Bool)
    (req : InitializeRequest) (tmp_dir : FsPath) : M Unit :=
  M.tryCatch
    (M.bind (initMkDirs tmp_dir req.root_individuals) fun genotype_dirs_map =>
     M.bind (module_initialize_call env genotype_dirs_map) fun _ =>
       pack_and_upload_genotypes env cleanupFails
         (req.root_individuals.map fun ind =>
           (tmp_dir ++ [ind.key], ind.genotype_put_url)))
    (fun e =>
      M.throw (.httpExc 500 ("Failed to initialize root population: " ++ e.str)))

def handle_initialize_route (env : Env) (cleanupFails : Bool)
    (req : InitializeRequest) : M InitializeResponse :=
  M.bind (get_config_from_request env req.config_name) fun config =>
  let config_root_keys := (config.initialize_.root_individuals.map Prod.fst).toFinset
  let request_root_keys := (req.root_individuals.map (·.key)).toFinset
  if config_root_keys ≠ request_root_keys then
    M.throw (.httpExc 400 "Mismatch between root keys in config and request.")
  else
    M.bind (manage_tmp_dir cleanupFails (initialize_with_block env cleanupFails req))
      fun _ =>
        M.pure
          { root_individuals := req.root_individuals.map fun ind =>
              { id := ind.id, parent_ids := [] } }

/-! ### `/generate` (`api/routes/generate.py`, `handle_generate`). -/

/-- Step 2 of `handle_generate`: create `tmp_dir/parents/id` per parent and
collect the `(get_url, target_dir)` pairs. -/
def genParentMkDirs (tmp_dir : FsPath) : List GenerateParentIndividualInput →
    M (List (String × FsPath))
  | [] => M.pure []
  | ind :: rest =>
    let individual_tmp_dir := tmp_dir ++ ["parents", ind.id]
    M.bind (makedirs false individual_tmp_dir) fun _ =>
    M.bind (genParentMkDirs tmp_dir rest) fun ps =>
      M.pure ((ind.genotype_get_url, individual_tmp_dir) :: ps)

/-- Step 3 of `handle_generate`: create `tmp_dir/children/id/genotype` per
child and collect `child_genotype_dirs_map` (again a dict whose duplicate-key
case is cut off by `os.makedirs` raising). -/
def genChildMkDirs (tmp_dir : FsPath) : List GenerateChildIndividualInput →
    M (List (String × FsPath))
  | [] => M.pure []
  | ind :: rest =>
    let genotype_dir := tmp_dir ++ ["children", ind.id, "genotype"]
    M.bind (makedirs false genotype_dir) fun _ =>
    M.bind (genChildMkDirs tmp_dir rest) fun m =>
      M.pure ((ind.id, genotype_dir) :: m)

/-- Python `l[i]`: raises `IndexError` out of range. -/
def pyIndex (l : List A) (i : Nat) : M A :=
  if h : i < l.length then M.pure (l.get ⟨i, h⟩) else M.throw .indexError

def mapPyIndex (l : List String) : List Nat → M (List String)
  | [] => M.pure []
  | p :: ps =>
    M.bind (pyIndex l p) fun x =>
    M.bind (mapPyIndex l ps) fun rest => M.pure (x :: rest)

/-- Step 6 of `handle_generate`: translate each child's parent indices into
parent ids (`parent_ids[p_idx] for p_idx in parentage_indices[i]`). -/
def buildGenOuts (parent_ids : List String) (parentage_indices : List (List Nat))
    (i : Nat) : List GenerateChildIndividualInput → M (List GenerateChildIndividualOutput)
  | [] => M.pure []
  | child :: rest =>
    M.bind (pyIndex parentage_indices i) fun idxs =>
    M.bind (mapPyIndex parent_ids idxs) fun parent_ids_for_child =>
    M.bind (buildGenOuts parent_ids parentage_indices (i + 1) rest) fun outs =>
      M.pure ({ id := child.id, parent_ids := parent_ids_for_child } :: outs)

/-- The `async with manage_tmp_dir()` block of `handle_generate` (steps 2-5
inside its try/except), returning the parentage map. -/
def generate_with_block (env : Env) (cleanupFails : Bool) (req : GenerateRequest)
    (tmp_dir : FsPath) : M (List (List Nat)) :=
  M.tryCatch
    (M.bind (genParentMkDirs tmp_dir req.parent_individuals) fun pairs =>
     M.bind (download_and_unpack_genotypes env pairs) fun download_results =>
     -- gather ran without return_exceptions=True, so download_results can
     -- only be the list of genotype directories: the source's
     -- isinstance(result, Exception) filter loop never sees an exception
     -- and its per-parent HTTP 500 raise is unreachable.
     let valid_parent_dirs := download_results
     M.bind (genChildMkDirs tmp_dir req.child_individuals) fun child_genotype_dirs_map =>
     let child_dirs := child_genotype_dirs_map.map Prod.snd
     M.bind (module_generate_call env valid_parent_dirs child_dirs) fun parentage_indices =>
     M.bind
       (pack_and_upload_genotypes env cleanupFails
         (req.child_individuals.map fun ind =>
           (tmp_dir ++ ["children", ind.id], ind.genotype_put_url)))
       fun _ => M.pure parentage_indices)
    (fun e =>
      M.throw (.httpExc 500 ("Failed to create new population: " ++ e.str)))

def handle_generate (env : Env) (cleanupFails : Bool) (req : GenerateRequest) :
    M GenerateResponse :=
  M.bind
    (M.tryCatch (get_config_from_request env req.config_name)
      (fun e => M.throw (.httpExc 500 ("Configuration error: " ++ e.str))))
    fun _config =>
  let parent_ids := req.parent_individuals.map (·.id)
  M.bind (manage_tmp_dir cleanupFails (generate_with_block env cleanupFails req))
    fun parentage_indices =>
  M.bind (buildGenOuts parent_ids parentage_indices 0 req.child_individuals) fun outs =>
    M.pure { child_individuals := outs }

/-! ### `/evaluate` (`api/routes/evaluate.py`, `handle_evaluate`). -/

/-- Step 2 of `handle_evaluate`: create `tmp_dir/id` per individual and
collect the `(get_url, target_dir)` pairs. -/
def evalMkDirs (tmp_dir : FsPath) : List EvaluateIndividualInput →
    M (List (String × FsPath))
  | [] => M.pure []
  | ind :: rest =>
    let individual_tmp_dir := tmp_dir ++ [ind.id]
    M.bind (makedirs false individual_tmp_dir) fun _ =>
    M.bind (evalMkDirs tmp_dir rest) fun ps =>
      M.pure ((ind.genotype_get_url, individual_tmp_dir) :: ps)

/-- Step 3 of `handle_evaluate`: walk `zip(individuals, download_results)`,
creating each phenotype directory (`os.makedirs(..., exist_ok=True)`) and
collecting the valid individuals and directory lists.  Because gather ran
without return_exceptions=True, every result is a directory path: the
isinstance(result, Exception) branch that records a per-individual error
status is unreachable, so no error statuses are produced here. -/
def evalPrep : List (EvaluateIndividualInput × FsPath) →
    M (List EvaluateIndividualInput × List FsPath × List FsPath)
  | [] => M.pure ([], [], [])
  | (ind, genotype_dir) :: rest =>
    let phenotype_dir := genotype_dir.dropLast ++ ["phenotype"]
    M.bind (makedirs true phenotype_dir) fun _ =>
    M.bind (evalPrep rest) fun r =>
      M.pure (ind :: r.1, genotype_dir :: r.2.1, phenotype_dir :: r.2.2)

/-- Python dict assignment `d[k] = v`: replaces in place or appends. -/
def insertOrReplace : List (String × B) → String → B → List (String × B)
  | [], k, v => [(k, v)]
  | (k0, v0) :: rest, k, v =>
    if k0 = k then (k0, v) :: rest else (k0, v0) :: insertOrReplace rest k v

/-- Mark every successfully processed individual with `status="success"`. -/
def markSuccess (statuses : List (String × EvaluateIndividualOutput)) :
    List EvaluateIndividualInput → List (String × EvaluateIndividualOutput)
  | [] => statuses
  | ind :: rest =>
    markSuccess
      (insertOrReplace statuses ind.id { id := ind.id, status := "success", message := none })
      rest

/-- Step 6 of `handle_evaluate`: `eval_statuses[individual.id]` per requested
individual (a Python dict lookup, raising `KeyError` when absent). -/
def compileResponses (statuses : List (String × EvaluateIndividualOutput)) :
    List EvaluateIndividualInput → M (List EvaluateIndividualOutput)
  | [] => M.pure []
  | ind :: rest =>
    match alookup statuses ind.id with
    | some out =>
      M.bind (compileResponses statuses rest) fun outs => M.pure (out :: outs)
    | none => M.throw (.keyError ind.id)

/-- The `async with manage_tmp_dir()` block of `handle_evaluate` (steps 2-6
with its catch-all except that turns any exception into per-individual error
statuses). -/
def evaluate_with_block (env : Env) (req : EvaluateRequest) (config : Config)
    (tmp_dir : FsPath) : M EvaluateResponse :=
  M.tryCatch
    (M.bind (evalMkDirs tmp_dir req.individuals) fun pairs =>
     M.bind (download_and_unpack_genotypes env pairs) fun download_results =>
     M.bind (evalPrep (req.individuals.zip download_results)) fun prep =>
     let individuals_to_eval := prep.1
     let valid_genotype_dirs := prep.2.1
     let valid_phenotype_dirs := prep.2.2
     let eval_statuses : List (String × EvaluateIndividualOutput) := []
     M.bind
       (if individuals_to_eval.isEmpty then M.pure eval_statuses
        else
          M.bind
            (module_evaluate_call env valid_genotype_dirs valid_phenotype_dirs config)
            fun _ =>
          M.bind
            (upload_phenotypes env
              (valid_phenotype_dirs.zip (individuals_to_eval.map (·.phenotype_put_urls)))
              config)
            fun _ =>
          M.pure (markSuccess eval_statuses individuals_to_eval))
       fun eval_statuses1 =>
     M.bind (compileResponses eval_statuses1 req.individuals) fun final_responses =>
       M.pure { individuals := final_responses })
    (fun e =>
      M.pure
        { individuals := req.individuals.map fun ind =>
            { id := ind.id, status := "error", message := some e.str } })

def handle_evaluate (env : Env) (cleanupFails : Bool) (req : EvaluateRequest) :
    M EvaluateResponse :=
  M.attempt (get_config_from_request env req.config_name)
    (fun config =>
      manage_tmp_dir cleanupFails (evaluate_with_block env req config))
    (fun e =>
      M.pure
        { individuals := req.individuals.map fun ind =>
            { id := ind.id, status := "error",
              message := some ("Configuration error: " ++ e.str) } })

/-! ### Concrete fixtures -/

instance [DecidableEq E] [DecidableEq A] : DecidableEq (Except E A) := fun x y =>
  match x, y with
  | .ok a, .ok b => decidable_of_iff (a = b) (by simp)
  | .error e, .error f => decidable_of_iff (e = f) (by simp)
  | .ok _, .error _ => isFalse (by simp)
  | .error _, .ok _ => isFalse (by simp)

def cfg0 : Config :=
  { initialize_ := { root_individuals := [("a", ⟨"random"⟩)] },
    evaluate := { phenotype := [("image", ⟨"img.png", "image/png"⟩)] },
    generate := { population_size := 4 } }

/-- Store oracle for the batch-download bug: the first URL answers 404, every
other URL serves a well-formed genotype archive. -/
def envC1 : Env :=
  { dl := fun u => if u = "u1" then .httpError 404 else .ok,
    dlSize := fun _ => 10,
    putStatus := fun _ => 200,
    packSize := fun _ => 5,
    moduleConfigResult := fun _ => .ok cfg0,
    moduleInitialize := fun _ => .ok (),
    moduleGenerate := fun _ _ => .ok [],
    moduleEvaluate := fun _ _ => .ok (),
    phen := fun _ _ => some 7 }

def reqC2 : EvaluateRequest :=
  { config_name := "cfg",
    individuals :=
      [⟨"i1", "g1", [("image", "p1")]⟩,
       ⟨"i2", "g2", [("image", "p2")]⟩,
       ⟨"i3", "g3", [("image", "p3")]⟩] }

/-- Store oracle for the evaluate bug: individual 2's download answers 404,
the other two succeed, the module and every upload would succeed. -/
def envC2 : Env :=
  { dl := fun u => if u = "g2" then .httpError 404 else .ok,
    dlSize := fun _ => 10,
    putStatus := fun _ => 200,
    packSize := fun _ => 5,
    moduleConfigResult := fun _ => .ok cfg0,
    moduleInitialize := fun _ => .ok (),
    moduleGenerate := fun _ _ => .ok [],
    moduleEvaluate := fun _ _ => .ok (),
    phen := fun _ _ => some 7 }

def stC9 : St := ⟨0, [], [⟨["f"], 3, .phenotype⟩], [], []⟩

def envC5 : Env := { envC1 with dl := fun _ => .noGenotype }

def reqC4 : InitializeRequest :=
  { config_name := "cfg", root_individuals := [⟨"r1", "b", "pu1"⟩] }

/-! ### C7: upload_phenotype uploads exactly the configured, addressed,
existing files -/

/-- The task list `buildPhenTasks` produces, computed from a files snapshot. -/
def phenTaskList (env : Env) (dir : FsPath) (urls : List (String × String))
    (files : List FileEntry) : List (String × EvaluatePhenotypeConfig) → List (M Unit)
  | [] => []
  | (key, fc) :: rest =>
    match alookup urls key with
    | none => phenTaskList env dir urls files rest
    | some url =>
      if files.any (fun x => x.path == dir ++ [fc.name]) then
        upload_file_streamed env url (dir ++ [fc.name]) fc.content_type
          :: phenTaskList env dir urls files rest
      else phenTaskList env dir urls files rest

/-- The PUT requests those tasks issue: one per configured phenotype key that
has a destination URL and whose file exists, with the config's content type
and the file's size. -/
def phenPutEvents (dir : FsPath) (urls : List (String × String))
    (files : List FileEntry) : List (String × EvaluatePhenotypeConfig) → List Event
  | [] => []
  | (key, fc) :: rest =>
    match alookup urls key with
    | none => phenPutEvents dir urls files rest
    | some url =>
      match files.find? (fun x => x.path == dir ++ [fc.name]) with
      | some fe =>
        .httpPut url (dir ++ [fc.name]) fc.content_type fe.size
          :: phenPutEvents dir urls files rest
      | none => phenPutEvents dir urls files rest

/-! ### Symbolic-execution kit: events classification and path facts -/

/-- Events every phase before the processing/upload steps may record. -/
def Event.quiet (e : Event) : Bool :=
  !(e.isHttpPut || e.isModuleGenerate || e.isModuleEvaluate)

/-- The events a run segment added are all quiet (no PUT, no module
generate/evaluate call). -/
def QuietDelta (s s' : St) : Prop :=
  ∃ t, s'.events = s.events ++ t ∧ ∀ e ∈ t, e.quiet = true

def St.afterMkdtemp (s : St) : St :=
  { s with counter := s.counter + 1,
           dirs := s.dirs ++ [tmpDir s.counter],
           events := s.events ++ [.mkdtempE (tmpDir s.counter)] }

def St.afterRmtree (s : St) (p : FsPath) : St :=
  { s with dirs := s.dirs.filter (fun d => !(p.isPrefixOf d)),
           files := s.files.filter (fun fe => !(p.isPrefixOf fe.path)),
           deleted := s.deleted ++ [p],
           events := s.events ++ [.rmtreeE p] }

def reqC6 : GenerateRequest :=
  { config_name := "cfg",
    parent_individuals := [⟨"p1", "g1"⟩, ⟨"p2", "g2"⟩],
    child_individuals := [⟨"c1", "cu1"⟩, ⟨"c2", "cu2"⟩, ⟨"c3", "cu3"⟩] }

def envC10 : Env := { envC1 with dl := fun _ => .httpError 500 }

/-- Store oracle for the fully successful generate path: every download and
upload succeeds and the module proposes parentage `[[0,1],[1],[0]]` for the
three children. -/
def envC8 : Env :=
  { dl := fun _ => .ok,
    dlSize := fun _ => 10,
    putStatus := fun _ => 200,
    packSize := fun _ => 5,
    moduleConfigResult := fun _ => .ok cfg0,
    moduleInitialize := fun _ => .ok (),
    moduleGenerate := fun _ _ => .ok [[0, 1], [1], [0]],
    moduleEvaluate := fun _ _ => .ok (),
    phen := fun _ _ => some 7 }

/-! ### C3: the temporary workspace is created and released exactly once -/

/-- Which events create or remove a `mkdtemp` directory. -/
def Event.isTmpE : Event → Bool
  | .mkdtempE _ => true
  | .rmtreeE _ => true
  | _ => false

/-- C3 invariant: a computation's event delta only creates or removes
temporary directories whose `mkdtemp` counter is at least the counter it
started from, and the counter never decreases. -/
def TmpSpec {A : Type} (x : M A) : Prop :=
  ∀ s : St, s.counter ≤ (x s).2.counter ∧
    ∃ t, (x s).2.events = s.events ++ t ∧
      ∀ p, (Event.rmtreeE p ∈ t ∨ Event.mkdtempE p ∈ t) →
        ∃ k, p = tmpDir k ∧ s.counter ≤ k

/-- Number of occurrences of an event in a trace. -/
def countEv (e : Event) (l : List Event) : Nat := (l.filter (fun x => x == e)).length

/-- Computations that leave the state untouched (Python code that only reads
state or raises). -/
def StatePres {A : Type} (x : M A) : Prop := ∀ s, (x s).2 = s

/-- An initialize request whose root key matches `cfg0`. -/
def reqC3 : InitializeRequest :=
  { config_name := "cfg", root_individuals := [⟨"r1", "a", "pu1"⟩] }

/-! ### Verification -/

/-- C1.  The claim says `download_and_unpack_genotypes` returns one outcome
per input pair, failures captured as per-item exceptions, all items reaching a
terminal state before the call returns.  The code calls `asyncio.gather`
without `return_exceptions=True` (utils.py line 288), contradicting its own
`list[str | Exception]` annotation and docstring: on the two-item batch below
whose first download answers 404, the call re-raises the `HTTPStatusError`
instead of returning a two-element outcome list (the sibling item still runs —
its GET is issued — but its outcome is discarded). -/
theorem download_and_unpack_genotypes_reraises_first_failure :
    (download_and_unpack_genotypes envC1 [("u1", ["d1"]), ("u2", ["d2"])] St.init).1
        = Except.error (PyErr.httpStatus 404) ∧
      Event.httpGet "u2" ∈
        (download_and_unpack_genotypes envC1 [("u1", ["d1"]), ("u2", ["d2"])] St.init).2.events := by
  decide

/-- C2.  The claim (and the spec's worked example) says that with individual
2's download failing and a module that always succeeds, individuals 1 and 3
are marked success and the module's evaluate observes their two genotype
directories.  Because `download_and_unpack_genotypes` re-raises the first
failure (no `return_exceptions=True`), `handle_evaluate`'s catch-all marks all
three individuals `error` with the stringified gather exception — not the
per-individual download/unpack message — and the module's evaluate is never
invoked at all. -/
theorem handle_evaluate_partial_failure_marks_all_error :
    (handle_evaluate envC2 false reqC2 St.init).1 =
        Except.ok
          { individuals :=
              [⟨"i1", "error", some "HTTP status error 404"⟩,
               ⟨"i2", "error", some "HTTP status error 404"⟩,
               ⟨"i3", "error", some "HTTP status error 404"⟩] } ∧
      ∀ e ∈ (handle_evaluate envC2 false reqC2 St.init).2.events,
        e.isModuleEvaluate = false := by
  decide

/-! ### C9: upload_file_streamed headers and failure condition -/

/-- C9.  `upload_file_streamed` issues exactly one PUT whose headers carry the
supplied content type and a Content-Length equal to the source file's actual
on-disk size (the `aiofiles.os.stat` result), and `raise_for_status` makes the
operation fail with a transport error exactly when the response status is not
a success (2xx) status. -/
theorem upload_file_streamed_headers_and_status (env : Env) (url : String)
    (source_path : FsPath) (content_type : String) (s : St) (fe : FileEntry)
    (h : s.files.find? (fun x => x.path == source_path) = some fe) :
    (upload_file_streamed env url source_path content_type s).2.events
        = s.events ++ [.httpPut url source_path content_type fe.size] ∧
      ((upload_file_streamed env url source_path content_type s).1 = .ok () ↔
        200 ≤ env.putStatus url ∧ env.putStatus url < 300) ∧
      (¬(200 ≤ env.putStatus url ∧ env.putStatus url < 300) →
        (upload_file_streamed env url source_path content_type s).1
          = .error (.httpStatus (env.putStatus url))) := by
  by_cases hc : 200 ≤ env.putStatus url ∧ env.putStatus url < 300 <;>
    simp [upload_file_streamed, stat, M.bind, M.emit, M.pure, M.throw, h, hc]

theorem upload_file_streamed_headers_and_status_witness :
    (upload_file_streamed envC1 "u" ["f"] "text/plain" stC9).2.events
        = stC9.events ++ [.httpPut "u" ["f"] "text/plain" 3] ∧
      ((upload_file_streamed envC1 "u" ["f"] "text/plain" stC9).1 = .ok () ↔
        200 ≤ envC1.putStatus "u" ∧ envC1.putStatus "u" < 300) ∧
      (¬(200 ≤ envC1.putStatus "u" ∧ envC1.putStatus "u" < 300) →
        (upload_file_streamed envC1 "u" ["f"] "text/plain" stC9).1
          = .error (.httpStatus (envC1.putStatus "u"))) :=
  upload_file_streamed_headers_and_status envC1 "u" ["f"] "text/plain" stC9
    ⟨["f"], 3, .phenotype⟩ (by decide)

/-! ### C5: unpack verification and temporary-archive cleanup -/

/-- C5.  When the downloaded archive extracts cleanly but yields no
`genotype/` subdirectory, `download_and_unpack_genotype` fails with the
"missing genotype directory" `FileNotFoundError` — a different error from the
`ReadError` extraction failures — and never silently succeeds; and on every
outcome, success or failure, the temporary archive file
`target_dir/genotype.tar.tmp` is removed again. -/
theorem download_and_unpack_genotype_missing_dir (env : Env) (url : String)
    (target : FsPath) (s : St)
    (hf : s.hasFile (target ++ ["genotype.tar.tmp"]) = false) :
    (env.dl url = .noGenotype → target ++ ["genotype"] ∉ s.dirs →
        (download_and_unpack_genotype env url target s).1
            = .error (.fileNotFound "genotype/ directory not found in tar archive.") ∧
          (download_and_unpack_genotype env url target s).2.files = s.files) ∧
      (∀ m, PyErr.fileNotFound "genotype/ directory not found in tar archive."
          ≠ PyErr.readError m) ∧
      (download_and_unpack_genotype env url target s).2.hasFile
          (target ++ ["genotype.tar.tmp"]) = false := by
  have hf' : s.files.any (fun x => x.path == target ++ ["genotype.tar.tmp"]) = false := hf
  have hall : ∀ fe ∈ s.files, ¬((fe.path == target ++ ["genotype.tar.tmp"]) = true) :=
    List.any_eq_false.mp hf'
  have herase : ∀ (n : Nat) (src : FileSrc),
      List.eraseP (fun x => x.path == target ++ ["genotype.tar.tmp"])
        (s.files ++ [FileEntry.mk (target ++ ["genotype.tar.tmp"]) n src]) = s.files := by
    intro n src
    rw [List.eraseP_append_right _ hall]
    simp
  have hfind : ∀ (n : Nat) (src : FileSrc),
      List.find? (fun x => x.path == target ++ ["genotype.tar.tmp"])
        (s.files ++ [FileEntry.mk (target ++ ["genotype.tar.tmp"]) n src])
        = some (FileEntry.mk (target ++ ["genotype.tar.tmp"]) n src) := by
    intro n src
    rw [List.find?_append, List.find?_eq_none.mpr hall]
    simp
  refine ⟨?_, fun m h => PyErr.noConfusion h, ?_⟩
  · intro hng hnd
    simp [download_and_unpack_genotype, download_file_streamed, unpack_archive,
      addFile, removeFile, aexists, isdir, M.bind, M.emit, M.pure, M.throw,
      M.tryFinally, hng, St.hasFile, hf', herase, hfind, hnd]
  · cases hdl : env.dl url <;>
      simp [download_and_unpack_genotype, download_file_streamed, unpack_archive,
        addFile, removeFile, aexists, isdir, M.bind, M.emit, M.pure, M.throw,
        M.tryFinally, hdl, St.hasFile, hf', herase, hfind] <;>
      (try (split <;> simp [M.pure, M.throw])) <;>
      (try (intro x hx; simpa using hall x hx))

theorem download_and_unpack_genotype_missing_dir_witness :
    (download_and_unpack_genotype envC5 "u" ["d"] St.init).1
        = .error (.fileNotFound "genotype/ directory not found in tar archive.") ∧
      (download_and_unpack_genotype envC5 "u" ["d"] St.init).2.files = St.init.files ∧
      (download_and_unpack_genotype envC5 "u" ["d"] St.init).2.hasFile
        (["d"] ++ ["genotype.tar.tmp"]) = false := by
  have h := download_and_unpack_genotype_missing_dir envC5 "u" ["d"] St.init (by decide)
  exact ⟨(h.1 rfl (by decide)).1, (h.1 rfl (by decide)).2, h.2.2⟩

/-! ### C4: initialize validates root keys before any side effect -/

/-- C4.  When the loaded configuration's set of root keys differs from the
requested set, `handle_initialize` raises the 400 `HTTPException` directly,
before `manage_tmp_dir` runs and before any HTTP client exists: starting from
a fresh state the only recorded action is the module's config load — no
directory is created (`mkdtemp`/`makedirs` events absent, `dirs` empty) and no
network request is issued. -/
theorem initialize_root_key_mismatch_fails_early (env : Env) (f : Bool)
    (req : InitializeRequest) (cfg : Config)
    (hc : env.moduleConfigResult req.config_name = .ok cfg)
    (hne : (cfg.initialize_.root_individuals.map Prod.fst).toFinset
        ≠ (req.root_individuals.map (·.key)).toFinset) :
    (handle_initialize_route env f req St.init).1
        = .error (.httpExc 400 "Mismatch between root keys in config and request.") ∧
      (handle_initialize_route env f req St.init).2.events
        = [.moduleConfig req.config_name] ∧
      (handle_initialize_route env f req St.init).2.dirs = [] ∧
      (handle_initialize_route env f req St.init).2.deleted = [] := by
  simp [handle_initialize_route, get_config_from_request, M.bind, M.emit, M.pure,
    M.throw, hc, hne, St.init]

theorem initialize_root_key_mismatch_fails_early_witness :
    (handle_initialize_route envC1 false reqC4 St.init).1
        = .error (.httpExc 400 "Mismatch between root keys in config and request.") ∧
      (handle_initialize_route envC1 false reqC4 St.init).2.events
        = [.moduleConfig reqC4.config_name] ∧
      (handle_initialize_route envC1 false reqC4 St.init).2.dirs = [] ∧
      (handle_initialize_route envC1 false reqC4 St.init).2.deleted = [] :=
  initialize_root_key_mismatch_fails_early envC1 false reqC4 cfg0 (by decide) (by decide)

theorem buildPhenTasks_eq (env : Env) (dir : FsPath) (urls : List (String × String))
    (l : List (String × EvaluatePhenotypeConfig)) (s : St) :
    buildPhenTasks env dir urls l s = (.ok (phenTaskList env dir urls s.files l), s) := by
  induction l with
  | nil => simp [buildPhenTasks, phenTaskList, M.pure]
  | cons kv rest ih =>
    obtain ⟨key, fc⟩ := kv
    simp only [buildPhenTasks, phenTaskList]
    cases alookup urls key with
    | none => exact ih
    | some url =>
      simp [aexists, M.bind, M.pure, ih, St.hasFile]

theorem runAll_phenTaskList (env : Env) (dir : FsPath) (urls : List (String × String))
    (l : List (String × EvaluatePhenotypeConfig)) :
    ∀ s : St,
      (runAll (phenTaskList env dir urls s.files l) s).2
        = { s with events := s.events ++ phenPutEvents dir urls s.files l } := by
  induction l with
  | nil => intro s; simp [phenTaskList, phenPutEvents, runAll]
  | cons kv rest ih =>
    intro s
    obtain ⟨key, fc⟩ := kv
    simp only [phenTaskList, phenPutEvents]
    cases alookup urls key with
    | none => exact ih s
    | some url =>
      cases hany : s.files.any (fun x => x.path == dir ++ [fc.name]) with
      | false =>
        have hfind : s.files.find? (fun x => x.path == dir ++ [fc.name]) = none :=
          List.find?_eq_none.mpr (List.any_eq_false.mp hany)
        simp [hany, hfind, ih s]
      | true =>
        obtain ⟨x, hx, hpx⟩ := List.any_eq_true.mp hany
        cases hfind : s.files.find? (fun x => x.path == dir ++ [fc.name]) with
        | none =>
          exact absurd hpx (List.find?_eq_none.mp hfind x hx)
        | some fe =>
          simp only [hany, if_true, runAll, hfind]
          by_cases hsc : 200 ≤ env.putStatus url ∧ env.putStatus url < 300 <;>
            · have hstep :
                  (upload_file_streamed env url (dir ++ [fc.name]) fc.content_type s)
                    = ((if 200 ≤ env.putStatus url ∧ env.putStatus url < 300
                          then Except.ok ()
                          else Except.error (PyErr.httpStatus (env.putStatus url))),
                        { s with events := s.events ++
                          [.httpPut url (dir ++ [fc.name]) fc.content_type fe.size] }) := by
                simp [upload_file_streamed, stat, M.bind, M.emit, M.pure, M.throw,
                  hfind, hsc]
              have hrest := ih { s with events := s.events ++
                  [.httpPut url (dir ++ [fc.name]) fc.content_type fe.size] }
              simp only [hstep, hsc, if_true, if_false] at *
              simp [hrest, List.append_assoc]

/-- The two selections pick the same entries, so the task and event lists are
empty together. -/
theorem phenTaskList_length (env : Env) (dir : FsPath) (urls : List (String × String))
    (files : List FileEntry) (l : List (String × EvaluatePhenotypeConfig)) :
    (phenTaskList env dir urls files l).length = (phenPutEvents dir urls files l).length := by
  induction l with
  | nil => rfl
  | cons kv rest ih =>
    obtain ⟨key, fc⟩ := kv
    simp only [phenTaskList, phenPutEvents]
    cases alookup urls key with
    | none => exact ih
    | some url =>
      cases hany : files.any (fun x => x.path == dir ++ [fc.name]) with
      | false =>
        have hfind : files.find? (fun x => x.path == dir ++ [fc.name]) = none :=
          List.find?_eq_none.mpr (List.any_eq_false.mp hany)
        simp [hfind, ih]
      | true =>
        obtain ⟨x, hx, hpx⟩ := List.any_eq_true.mp hany
        cases hfind : files.find? (fun x => x.path == dir ++ [fc.name]) with
        | none => exact absurd hpx (List.find?_eq_none.mp hfind x hx)
        | some fe => simp [hfind, ih]

theorem mem_phenPutEvents (dir : FsPath) (urls : List (String × String))
    (files : List FileEntry) (l : List (String × EvaluatePhenotypeConfig))
    (url : String) (p : FsPath) (ct : String) (n : Nat) :
    Event.httpPut url p ct n ∈ phenPutEvents dir urls files l ↔
      ∃ key fc, (key, fc) ∈ l ∧ alookup urls key = some url ∧ p = dir ++ [fc.name] ∧
        (∃ fe, files.find? (fun x => x.path == p) = some fe ∧ fe.size = n) ∧
        ct = fc.content_type := by
  induction l with
  | nil => simp [phenPutEvents]
  | cons kv rest ih =>
    obtain ⟨key, fc⟩ := kv
    simp only [phenPutEvents]
    cases hurl : alookup urls key with
    | none =>
      rw [ih]
      constructor
      · rintro ⟨k, f, hm, h2, h3, h4, h5⟩
        exact ⟨k, f, List.mem_cons_of_mem _ hm, h2, h3, h4, h5⟩
      · rintro ⟨k, f, hm, h2, h3, h4, h5⟩
        rcases List.mem_cons.mp hm with heq | hm'
        · cases heq; rw [hurl] at h2; cases h2
        · exact ⟨k, f, hm', h2, h3, h4, h5⟩
    | some u =>
      cases hfind : files.find? (fun x => x.path == dir ++ [fc.name]) with
      | none =>
        rw [ih]
        constructor
        · rintro ⟨k, f, hm, h2, h3, h4, h5⟩
          exact ⟨k, f, List.mem_cons_of_mem _ hm, h2, h3, h4, h5⟩
        · rintro ⟨k, f, hm, h2, h3, ⟨fe, hfe, hsz⟩, h5⟩
          rcases List.mem_cons.mp hm with heq | hm'
          · cases heq; rw [h3] at hfe; rw [hfind] at hfe; cases hfe
          · exact ⟨k, f, hm', h2, h3, ⟨fe, hfe, hsz⟩, h5⟩
      | some fe =>
        simp only [List.mem_cons, ih]
        constructor
        · rintro (heq | ⟨k, f, hm, h2, h3, h4, h5⟩)
          · injection heq with e1 e2 e3 e4
            exact ⟨key, fc, Or.inl rfl, by rw [hurl, e1], e2,
              ⟨fe, by rw [e2]; exact hfind, e4.symm⟩, e3⟩
          · exact ⟨k, f, Or.inr hm, h2, h3, h4, h5⟩
        · rintro ⟨k, f, hkf, h2, h3, ⟨fe', hfe', hsz⟩, h5⟩
          rcases hkf with heq | hm'
          · injection heq with ek ef
            subst ek; subst ef
            rw [hurl] at h2; injection h2 with hu
            rw [h3] at hfe' ⊢
            rw [hfind] at hfe'; injection hfe' with hfe'
            subst hfe'
            exact Or.inl (by rw [hu, h5, hsz])
          · exact Or.inr ⟨k, f, hm', h2, h3, ⟨fe', hfe', hsz⟩, h5⟩

/-- C7.  For one individual, `upload_phenotype` issues exactly one PUT per
phenotype key that appears both in `config.evaluate.phenotype` and in the
individual's `phenotype_put_urls`, and whose configured file exists on disk in
the phenotype directory; no other upload happens, and each PUT carries the
content type declared in the config for its key (and the file's size).  Stated
both as the exact event trace and as a membership characterization. -/
theorem upload_phenotype_uploads_exactly_configured (env : Env) (dir : FsPath)
    (put_urls : List (String × String)) (config : Config) (s : St) :
    (upload_phenotype env dir put_urls config s).2.events
        = s.events ++ phenPutEvents dir put_urls s.files config.evaluate.phenotype ∧
      ∀ url p ct n,
        Event.httpPut url p ct n ∈ (upload_phenotype env dir put_urls config s).2.events
          ↔ (Event.httpPut url p ct n ∈ s.events ∨
              ∃ key fc, (key, fc) ∈ config.evaluate.phenotype ∧
                alookup put_urls key = some url ∧
                p = dir ++ [fc.name] ∧
                (∃ fe, s.files.find? (fun x => x.path == p) = some fe ∧ fe.size = n) ∧
                ct = fc.content_type) := by
  have hmain : (upload_phenotype env dir put_urls config s).2
      = { s with events :=
            s.events ++ phenPutEvents dir put_urls s.files config.evaluate.phenotype } := by
    simp only [upload_phenotype, M.bind, buildPhenTasks_eq]
    cases hemp : (phenTaskList env dir put_urls s.files config.evaluate.phenotype).isEmpty with
    | true =>
      have hnil : phenTaskList env dir put_urls s.files config.evaluate.phenotype = [] :=
        List.isEmpty_iff.mp hemp
      have hlen := phenTaskList_length env dir put_urls s.files config.evaluate.phenotype
      rw [hnil] at hlen
      have hev : phenPutEvents dir put_urls s.files config.evaluate.phenotype = [] :=
        List.length_eq_zero.mp hlen.symm
      simp [hemp, M.pure, hev]
    | false =>
      have hrun := runAll_phenTaskList env dir put_urls config.evaluate.phenotype s
      simp only [hemp, Bool.false_eq_true, if_false, asyncio_gather, M.pure]
      cases hfe : firstErrorOrList
          (runAll (phenTaskList env dir put_urls s.files config.evaluate.phenotype) s).1 <;>
        simp [M.bind, asyncio_gather, M.pure, hfe, hrun]
  constructor
  · rw [hmain]
  · intro url p ct n
    rw [hmain]
    simp only [List.mem_append]
    rw [mem_phenPutEvents]

theorem ne_of_length_ne {a b : FsPath} (h : a.length ≠ b.length) : a ≠ b :=
  fun hab => h (by rw [hab])

theorem tmpDir_inj {k n : Nat} (h : tmpDir k = tmpDir n) : k = n := by
  have h1 : ("tmp" ++ String.mk (List.replicate k 'x'))
      = ("tmp" ++ String.mk (List.replicate n 'x')) := by
    have := List.cons.injEq (α := String) _ _ _ _ ▸ h
    simpa [tmpDir] using h
  have h2 : ("tmp" ++ String.mk (List.replicate k 'x')).length
      = ("tmp" ++ String.mk (List.replicate n 'x')).length := by rw [h1]
  simpa [String.length_append] using h2

/-- A single download-and-unpack task, run on a state where the temporary
archive file does not pre-exist and the genotype directory is absent: its
outcome is determined by the oracle for its URL, the `genotype/` directory is
created exactly on success, the temporary file nets out removed, and the only
event is the GET. -/
theorem download_and_unpack_genotype_run (env : Env) (u : String) (t : FsPath)
    (s : St) (hf : s.hasFile (t ++ ["genotype.tar.tmp"]) = false)
    (hd : t ++ ["genotype"] ∉ s.dirs) :
    download_and_unpack_genotype env u t s
      = ((match env.dl u with
          | .ok => Except.ok (t ++ ["genotype"])
          | o => Except.error (dlErr o)),
         { s with
           dirs := if env.dl u = .ok then s.dirs ++ [t ++ ["genotype"]] else s.dirs,
           events := s.events ++ [.httpGet u] }) := by
  have hf' : s.files.any (fun x => x.path == t ++ ["genotype.tar.tmp"]) = false := hf
  have hall : ∀ fe ∈ s.files, ¬((fe.path == t ++ ["genotype.tar.tmp"]) = true) :=
    List.any_eq_false.mp hf'
  have herase : ∀ (n : Nat) (src : FileSrc),
      List.eraseP (fun x => x.path == t ++ ["genotype.tar.tmp"])
        (s.files ++ [FileEntry.mk (t ++ ["genotype.tar.tmp"]) n src]) = s.files := by
    intro n src
    rw [List.eraseP_append_right _ hall]
    simp
  have hfind : ∀ (n : Nat) (src : FileSrc),
      List.find? (fun x => x.path == t ++ ["genotype.tar.tmp"])
        (s.files ++ [FileEntry.mk (t ++ ["genotype.tar.tmp"]) n src])
        = some (FileEntry.mk (t ++ ["genotype.tar.tmp"]) n src) := by
    intro n src
    rw [List.find?_append, List.find?_eq_none.mpr hall]
    simp
  cases hdl : env.dl u <;>
    simp [download_and_unpack_genotype, download_file_streamed, unpack_archive,
      dlErr, addFile, removeFile, aexists, isdir, M.bind, M.emit, M.pure, M.throw,
      M.tryFinally, hdl, St.hasFile, hf', herase, hfind, hd]

/-- `asyncio.gather` re-raises some exception when any task failed. -/
theorem firstErrorOrList_error_of_mem {l : List (Except PyErr A)} {e : PyErr}
    (hmem : Except.error e ∈ l) : ∃ e', firstErrorOrList l = .error e' := by
  induction l with
  | nil => cases hmem
  | cons x rest ih =>
    cases x with
    | error e0 => exact ⟨e0, rfl⟩
    | ok a =>
      rcases List.mem_cons.mp hmem with heq | hm'
      · cases heq
      · obtain ⟨e', he'⟩ := ih hm'
        simp [firstErrorOrList, he']

theorem firstErrorOrList_map_ok {B : Type} (l : List B) (f : B → Except PyErr A)
    (g : B → A) (h : ∀ b ∈ l, f b = .ok (g b)) :
    firstErrorOrList (l.map f) = .ok (l.map g) := by
  induction l with
  | nil => rfl
  | cons b rest ih =>
    have hb := h b (List.mem_cons_self b rest)
    simp only [List.map_cons, hb, firstErrorOrList,
      ih (fun x hx => h x (List.mem_cons_of_mem _ hx))]

/-- Running all download tasks of a batch: per-item results are determined by
the oracle, successful items add their genotype directory, files net out
unchanged, and the events are the GETs in order. -/
theorem runAll_download (env : Env) :
    ∀ (pairs : List (String × FsPath)) (s : St),
      (∀ pr ∈ pairs, s.hasFile (pr.2 ++ ["genotype.tar.tmp"]) = false) →
      (∀ pr ∈ pairs, pr.2 ++ ["genotype"] ∉ s.dirs) →
      (pairs.map (fun pr => pr.2 ++ ["genotype"])).Nodup →
      (runAll (pairs.map fun pr => download_and_unpack_genotype env pr.1 pr.2) s).1
          = pairs.map (fun pr =>
              match env.dl pr.1 with
              | .ok => Except.ok (pr.2 ++ ["genotype"])
              | o => Except.error (dlErr o)) ∧
        (runAll (pairs.map fun pr => download_and_unpack_genotype env pr.1 pr.2) s).2
          = { s with
              dirs := s.dirs ++ (pairs.filter (fun pr => env.dl pr.1 == .ok)).map
                  (fun pr => pr.2 ++ ["genotype"]),
              events := s.events ++ pairs.map (fun pr => .httpGet pr.1) } := by
  intro pairs
  induction pairs with
  | nil => intro s _ _ _; constructor <;> simp [runAll]
  | cons pr rest ih =>
    intro s hfile hdir hnodup
    have hpr := download_and_unpack_genotype_run env pr.1 pr.2 s
      (hfile pr (List.mem_cons_self pr rest)) (hdir pr (List.mem_cons_self pr rest))
    rw [List.map_cons, List.nodup_cons] at hnodup
    obtain ⟨hnotmem, hnodup'⟩ := hnodup
    have hne : ∀ q ∈ rest, q.2 ++ ["genotype"] ≠ pr.2 ++ ["genotype"] := by
      intro q hq heq
      exact hnotmem (heq ▸ List.mem_map_of_mem (fun x => x.2 ++ ["genotype"]) hq)
    by_cases hok : env.dl pr.1 = .ok
    · have hstate := ih
        { s with
          dirs := s.dirs ++ [pr.2 ++ ["genotype"]]
          events := s.events ++ [.httpGet pr.1] }
        (by intro q hq; exact hfile q (List.mem_cons_of_mem _ hq))
        (by
          intro q hq
          simp only [List.mem_append, List.mem_singleton]
          push_neg
          exact ⟨hdir q (List.mem_cons_of_mem _ hq), hne q hq⟩)
        hnodup'
      simp only [List.map_cons, runAll, hpr, hok, if_true]
      refine ⟨?_, ?_⟩
      · simp [hok, hstate.1]
      · rw [hstate.2]
        simp [hok, List.append_assoc, List.filter_cons]
    · have hmatch : (match env.dl pr.1 with
          | DlOutcome.ok => Except.ok (pr.2 ++ ["genotype"])
          | o => Except.error (dlErr o)) = Except.error (dlErr (env.dl pr.1)) := by
        cases hdl : env.dl pr.1 <;> first | rfl | exact absurd hdl hok
      have hpr' : download_and_unpack_genotype env pr.1 pr.2 s
          = (Except.error (dlErr (env.dl pr.1)),
              { s with events := s.events ++ [Event.httpGet pr.1] }) := by
        rw [hpr, if_neg hok, hmatch]
      have hstate := ih { s with events := s.events ++ [Event.httpGet pr.1] }
        (by intro q hq; exact hfile q (List.mem_cons_of_mem _ hq))
        (by intro q hq; exact hdir q (List.mem_cons_of_mem _ hq))
        hnodup'
      have hbeq : (env.dl pr.1 == DlOutcome.ok) = false := by
        simpa using hok
      simp only [List.map_cons, runAll, hpr']
      refine ⟨?_, ?_⟩
      · rw [hstate.1]
      · rw [hstate.2]
        simp [List.filter_cons, hbeq, List.append_assoc]

theorem QuietDelta.refl (s : St) : QuietDelta s s := ⟨[], by simp, by simp⟩

theorem QuietDelta.trans {s1 s2 s3 : St} (h1 : QuietDelta s1 s2)
    (h2 : QuietDelta s2 s3) : QuietDelta s1 s3 := by
  obtain ⟨t1, he1, hq1⟩ := h1
  obtain ⟨t2, he2, hq2⟩ := h2
  refine ⟨t1 ++ t2, by rw [he2, he1, List.append_assoc], ?_⟩
  intro e he
  rcases List.mem_append.mp he with h | h
  · exact hq1 e h
  · exact hq2 e h

/-- `genParentMkDirs` either raises (leaving only quiet events behind) or
creates exactly the per-parent directories, returning the download pairs. -/
theorem genParentMkDirs_run (tmp : FsPath) :
    ∀ (parents : List GenerateParentIndividualInput) (s : St),
      (∃ e s', genParentMkDirs tmp parents s = (.error e, s') ∧ QuietDelta s s' ∧
          s'.files = s.files ∧ s'.counter = s.counter ∧ s'.deleted = s.deleted) ∨
      (genParentMkDirs tmp parents s
          = (.ok (parents.map fun p => (p.genotype_get_url, tmp ++ ["parents", p.id])),
             { s with
               dirs := s.dirs ++ parents.map (fun p => tmp ++ ["parents", p.id])
               events := s.events
                 ++ parents.map (fun p => .makedirsE (tmp ++ ["parents", p.id])) }) ∧
        (parents.map (fun p => tmp ++ ["parents", p.id])).Nodup ∧
        ∀ p ∈ parents, tmp ++ ["parents", p.id] ∉ s.dirs) := by
  intro parents
  induction parents with
  | nil =>
    intro s
    right
    refine ⟨?_, by simp, by simp⟩
    simp [genParentMkDirs, M.pure]
  | cons p rest ih =>
    intro s
    by_cases hmem : tmp ++ ["parents", p.id] ∈ s.dirs
    · left
      refine ⟨.fileExists (tmp ++ ["parents", p.id]),
        { s with events := s.events ++ [.makedirsE (tmp ++ ["parents", p.id])] }, ?_, ?_, rfl, rfl, rfl⟩
      · simp [genParentMkDirs, makedirs, M.bind, hmem]
      · exact ⟨[.makedirsE (tmp ++ ["parents", p.id])], rfl, by simp [Event.quiet,
          Event.isHttpPut, Event.isModuleGenerate, Event.isModuleEvaluate]⟩
    · have hstep : makedirs false (tmp ++ ["parents", p.id]) s
          = (.ok (), { s with dirs := s.dirs ++ [tmp ++ ["parents", p.id]]
                              events := s.events ++ [.makedirsE (tmp ++ ["parents", p.id])] }) := by
        simp [makedirs, hmem]
      set s1 : St := { s with dirs := s.dirs ++ [tmp ++ ["parents", p.id]]
                              events := s.events ++ [.makedirsE (tmp ++ ["parents", p.id])] } with hs1
      have hdelta1 : QuietDelta s s1 :=
        ⟨[.makedirsE (tmp ++ ["parents", p.id])], rfl, by simp [Event.quiet,
          Event.isHttpPut, Event.isModuleGenerate, Event.isModuleEvaluate]⟩
      rcases ih s1 with ⟨e, s', hrun, hq, hfi, hco, hde⟩ | ⟨hrun, hnodup, hfresh⟩
      · left
        refine ⟨e, s', ?_, hdelta1.trans hq, by rw [hfi], by rw [hco], by rw [hde]⟩
        simp [genParentMkDirs, M.bind, hstep, hrun]
      · right
        refine ⟨?_, ?_, ?_⟩
        · simp only [genParentMkDirs, M.bind, hstep, hrun, M.pure]
          refine congrArg _ ?_
          apply St.ext <;> simp [hs1, List.append_assoc]
        · refine List.nodup_cons.mpr ⟨?_, hnodup⟩
          intro hin
          obtain ⟨q, hq, heq⟩ := List.mem_map.mp hin
          have := hfresh q hq
          rw [hs1] at this
          simp only [List.mem_append, List.mem_singleton] at this
          push_neg at this
          exact this.2 heq
        · intro q hq
          rcases List.mem_cons.mp hq with rfl | hq'
          · exact hmem
          · have := hfresh q hq'
            rw [hs1] at this
            simp only [List.mem_append, List.mem_singleton] at this
            push_neg at this
            exact this.1

/-- `evalMkDirs` either raises (leaving only quiet events) or creates exactly
the per-individual directories, returning the download pairs. -/
theorem evalMkDirs_run (tmp : FsPath) :
    ∀ (inds : List EvaluateIndividualInput) (s : St),
      (∃ e s', evalMkDirs tmp inds s = (.error e, s') ∧ QuietDelta s s' ∧
          s'.files = s.files ∧ s'.counter = s.counter ∧ s'.deleted = s.deleted) ∨
      (evalMkDirs tmp inds s
          = (.ok (inds.map fun ind => (ind.genotype_get_url, tmp ++ [ind.id])),
             { s with
               dirs := s.dirs ++ inds.map (fun ind => tmp ++ [ind.id])
               events := s.events ++ inds.map (fun ind => .makedirsE (tmp ++ [ind.id])) }) ∧
        (inds.map (fun ind => tmp ++ [ind.id])).Nodup ∧
        ∀ ind ∈ inds, tmp ++ [ind.id] ∉ s.dirs) := by
  intro inds
  induction inds with
  | nil =>
    intro s
    right
    refine ⟨?_, by simp, by simp⟩
    simp [evalMkDirs, M.pure]
  | cons p rest ih =>
    intro s
    by_cases hmem : tmp ++ [p.id] ∈ s.dirs
    · left
      refine ⟨.fileExists (tmp ++ [p.id]),
        { s with events := s.events ++ [.makedirsE (tmp ++ [p.id])] }, ?_, ?_, rfl, rfl, rfl⟩
      · simp [evalMkDirs, makedirs, M.bind, hmem]
      · exact ⟨[.makedirsE (tmp ++ [p.id])], rfl, by simp [Event.quiet,
          Event.isHttpPut, Event.isModuleGenerate, Event.isModuleEvaluate]⟩
    · have hstep : makedirs false (tmp ++ [p.id]) s
          = (.ok (), { s with dirs := s.dirs ++ [tmp ++ [p.id]]
                              events := s.events ++ [.makedirsE (tmp ++ [p.id])] }) := by
        simp [makedirs, hmem]
      set s1 : St := { s with dirs := s.dirs ++ [tmp ++ [p.id]]
                              events := s.events ++ [.makedirsE (tmp ++ [p.id])] } with hs1
      have hdelta1 : QuietDelta s s1 :=
        ⟨[.makedirsE (tmp ++ [p.id])], rfl, by simp [Event.quiet,
          Event.isHttpPut, Event.isModuleGenerate, Event.isModuleEvaluate]⟩
      rcases ih s1 with ⟨e, s', hrun, hq, hfi, hco, hde⟩ | ⟨hrun, hnodup, hfresh⟩
      · left
        refine ⟨e, s', ?_, hdelta1.trans hq, by rw [hfi], by rw [hco], by rw [hde]⟩
        simp [evalMkDirs, M.bind, hstep, hrun]
      · right
        refine ⟨?_, ?_, ?_⟩
        · simp only [evalMkDirs, M.bind, hstep, hrun, M.pure]
          refine congrArg _ ?_
          apply St.ext <;> simp [hs1, List.append_assoc]
        · refine List.nodup_cons.mpr ⟨?_, hnodup⟩
          intro hin
          obtain ⟨q, hq, heq⟩ := List.mem_map.mp hin
          have := hfresh q hq
          rw [hs1] at this
          simp only [List.mem_append, List.mem_singleton] at this
          push_neg at this
          exact this.2 heq
        · intro q hq
          rcases List.mem_cons.mp hq with rfl | hq'
          · exact hmem
          · have := hfresh q hq'
            rw [hs1] at this
            simp only [List.mem_append, List.mem_singleton] at this
            push_neg at this
            exact this.1

/-- Success form of the parent-directory loop, used on the all-distinct path. -/
theorem genParentMkDirs_ok (tmp : FsPath) :
    ∀ (parents : List GenerateParentIndividualInput) (s : St),
      (parents.map (fun p => tmp ++ ["parents", p.id])).Nodup →
      (∀ p ∈ parents, tmp ++ ["parents", p.id] ∉ s.dirs) →
      genParentMkDirs tmp parents s
        = (.ok (parents.map fun p => (p.genotype_get_url, tmp ++ ["parents", p.id])),
           { s with
             dirs := s.dirs ++ parents.map (fun p => tmp ++ ["parents", p.id])
             events := s.events
               ++ parents.map (fun p => .makedirsE (tmp ++ ["parents", p.id])) }) := by
  intro parents
  induction parents with
  | nil => intro s _ _; simp [genParentMkDirs, M.pure]
  | cons p rest ih =>
    intro s hnodup hfresh
    rw [List.map_cons, List.nodup_cons] at hnodup
    have hmem : tmp ++ ["parents", p.id] ∉ s.dirs := hfresh p (List.mem_cons_self p rest)
    have hstep : makedirs false (tmp ++ ["parents", p.id]) s
        = (.ok (), { s with dirs := s.dirs ++ [tmp ++ ["parents", p.id]]
                            events := s.events ++ [.makedirsE (tmp ++ ["parents", p.id])] }) := by
      simp [makedirs, hmem]
    have hrest := ih
      { s with dirs := s.dirs ++ [tmp ++ ["parents", p.id]]
               events := s.events ++ [.makedirsE (tmp ++ ["parents", p.id])] }
      hnodup.2
      (by
        intro q hq
        simp only [List.mem_append, List.mem_singleton]
        push_neg
        refine ⟨hfresh q (List.mem_cons_of_mem _ hq), ?_⟩
        intro heq
        exact hnodup.1 (heq ▸ List.mem_map_of_mem _ hq))
    simp only [genParentMkDirs, M.bind, hstep, hrest, M.pure]
    refine congrArg _ ?_
    apply St.ext <;> simp [List.append_assoc]

/-- Success form of the child-directory loop. -/
theorem genChildMkDirs_ok (tmp : FsPath) :
    ∀ (children : List GenerateChildIndividualInput) (s : St),
      (children.map (fun c => tmp ++ ["children", c.id, "genotype"])).Nodup →
      (∀ c ∈ children, tmp ++ ["children", c.id, "genotype"] ∉ s.dirs) →
      genChildMkDirs tmp children s
        = (.ok (children.map fun c => (c.id, tmp ++ ["children", c.id, "genotype"])),
           { s with
             dirs := s.dirs ++ children.map (fun c => tmp ++ ["children", c.id, "genotype"])
             events := s.events
               ++ children.map (fun c => .makedirsE (tmp ++ ["children", c.id, "genotype"])) }) := by
  intro children
  induction children with
  | nil => intro s _ _; simp [genChildMkDirs, M.pure]
  | cons c rest ih =>
    intro s hnodup hfresh
    rw [List.map_cons, List.nodup_cons] at hnodup
    have hmem : tmp ++ ["children", c.id, "genotype"] ∉ s.dirs :=
      hfresh c (List.mem_cons_self c rest)
    have hstep : makedirs false (tmp ++ ["children", c.id, "genotype"]) s
        = (.ok (), { s with dirs := s.dirs ++ [tmp ++ ["children", c.id, "genotype"]]
                            events := s.events
                              ++ [.makedirsE (tmp ++ ["children", c.id, "genotype"])] }) := by
      simp [makedirs, hmem]
    have hrest := ih
      { s with dirs := s.dirs ++ [tmp ++ ["children", c.id, "genotype"]]
               events := s.events ++ [.makedirsE (tmp ++ ["children", c.id, "genotype"])] }
      hnodup.2
      (by
        intro q hq
        simp only [List.mem_append, List.mem_singleton]
        push_neg
        refine ⟨hfresh q (List.mem_cons_of_mem _ hq), ?_⟩
        intro heq
        exact hnodup.1 (heq ▸ List.mem_map_of_mem _ hq))
    simp only [genChildMkDirs, M.bind, hstep, hrest, M.pure]
    refine congrArg _ ?_
    apply St.ext <;> simp [List.append_assoc]

/-! ### Composition equations for symbolic execution -/

theorem M.bind_ok {A B : Type} {x : M A} {f : A → M B} {s s' : St} {a : A}
    (h : x s = (.ok a, s')) : M.bind x f s = f a s' := by
  simp [M.bind, h]

theorem M.bind_error {A B : Type} {x : M A} {f : A → M B} {s s' : St} {e : PyErr}
    (h : x s = (.error e, s')) : M.bind x f s = (.error e, s') := by
  simp [M.bind, h]

theorem M.tryCatch_ok {A : Type} {x : M A} {g : PyErr → M A} {s s' : St} {a : A}
    (h : x s = (.ok a, s')) : M.tryCatch x g s = (.ok a, s') := by
  simp [M.tryCatch, h]

theorem M.tryCatch_error {A : Type} {x : M A} {g : PyErr → M A} {s s' : St} {e : PyErr}
    (h : x s = (.error e, s')) : M.tryCatch x g s = g e s' := by
  simp [M.tryCatch, h]

theorem M.attempt_ok {A B : Type} {x : M A} {k : A → M B} {g : PyErr → M B}
    {s s' : St} {a : A} (h : x s = (.ok a, s')) : M.attempt x k g s = k a s' := by
  simp [M.attempt, h]

theorem M.attempt_error {A B : Type} {x : M A} {k : A → M B} {g : PyErr → M B}
    {s s' : St} {e : PyErr} (h : x s = (.error e, s')) : M.attempt x k g s = g e s' := by
  simp [M.attempt, h]

theorem M.tryFinally_run {A : Type} {x : M A} {fin : M Unit} {s s' s'' : St}
    {r : Except PyErr A} (h : x s = (r, s')) (hfin : fin s' = (.ok (), s'')) :
    M.tryFinally x fin s = (r, s'') := by
  cases r <;> simp [M.tryFinally, h, hfin]

theorem get_config_ok (env : Env) (name : String) (cfg : Config) (s : St)
    (hc : env.moduleConfigResult name = .ok cfg) :
    get_config_from_request env name s
      = (.ok cfg, { s with events := s.events ++ [.moduleConfig name] }) := by
  simp [get_config_from_request, M.bind, M.emit, M.pure, hc]

theorem rmtree_true_run (f : Bool) (p : FsPath) (s : St) :
    rmtree true f p s = (.ok (),
      { s with dirs := s.dirs.filter (fun d => !(p.isPrefixOf d)),
               files := s.files.filter (fun fe => !(p.isPrefixOf fe.path)),
               deleted := s.deleted ++ [p],
               events := s.events ++ [.rmtreeE p] }) := by
  simp [rmtree]

theorem quiet_spec {e : Event} (h : e.quiet = true) :
    e.isHttpPut = false ∧ e.isModuleGenerate = false ∧ e.isModuleEvaluate = false := by
  cases e <;> simp_all [Event.quiet, Event.isHttpPut, Event.isModuleGenerate,
    Event.isModuleEvaluate]

/-- Running a workspace block under `manage_tmp_dir`: the body runs in the
post-`mkdtemp` state and the temporary tree is removed afterwards, whatever
the body's outcome and whether or not the removal itself would fail. -/
theorem manage_tmp_dir_run {A : Type} (f : Bool) (body : FsPath → M A) (s : St)
    {r : Except PyErr A} {s1 : St}
    (hbody : body (tmpDir s.counter) s.afterMkdtemp = (r, s1)) :
    manage_tmp_dir f body s = (r, s1.afterRmtree (tmpDir s.counter)) := by
  unfold manage_tmp_dir
  have hmk : mkdtemp s = (.ok (tmpDir s.counter), s.afterMkdtemp) := rfl
  rw [M.bind_ok hmk]
  exact M.tryFinally_run hbody (rmtree_true_run f (tmpDir s.counter) s1)

theorem quiet_all_of (l : List Event) (h : ∀ ev ∈ l, ev.quiet = true) :
    ∀ ev ∈ l, ev.isModuleGenerate = false ∧ ev.isHttpPut = false :=
  fun ev hev => ⟨(quiet_spec (h ev hev)).2.1, (quiet_spec (h ev hev)).1⟩

/-- C6.  When at least one parent's download or unpack fails, the whole
generate request fails with a single terminal HTTP 500 error, the module's
generate is never invoked, and zero child genotype archives are uploaded
(no PUT request is ever issued). -/
theorem generate_parent_failure_aborts (env : Env) (f : Bool) (req : GenerateRequest)
    (cfg : Config)
    (hc : env.moduleConfigResult req.config_name = .ok cfg)
    (hfail : ∃ p ∈ req.parent_individuals, env.dl p.genotype_get_url ≠ .ok) :
    (∃ d, (handle_generate env f req St.init).1 = .error (.httpExc 500 d)) ∧
      ∀ e ∈ (handle_generate env f req St.init).2.events,
        e.isModuleGenerate = false ∧ e.isHttpPut = false := by
  obtain ⟨p0, hp0, hfail0⟩ := hfail
  have hcfg : get_config_from_request env req.config_name St.init
      = (.ok cfg, ⟨0, [], [], [], [Event.moduleConfig req.config_name]⟩) := by
    rw [get_config_ok env req.config_name cfg St.init hc]
    rfl
  set stA : St := ⟨0, [], [], [], [Event.moduleConfig req.config_name]⟩ with hstA
  set stB : St := stA.afterMkdtemp with hstB
  have hstBev : stB.events
      = [Event.moduleConfig req.config_name, Event.mkdtempE (tmpDir 0)] := rfl
  have hstBdirs : stB.dirs = [tmpDir 0] := rfl
  rcases genParentMkDirs_run (tmpDir 0) req.parent_individuals stB with
    ⟨e, s', hrun, hq, hfi, hco, hde⟩ | ⟨hrun, hnodup, hfresh⟩
  · -- the parent-directory loop itself raised: catch-all turns it into a 500
    have hblock : generate_with_block env f req (tmpDir 0) stB
        = (.error (.httpExc 500 ("Failed to create new population: " ++ e.str)), s') := by
      unfold generate_with_block
      rw [M.tryCatch_error (M.bind_error hrun)]
      rfl
    have htop : handle_generate env f req St.init
        = (.error (.httpExc 500 ("Failed to create new population: " ++ e.str)),
           s'.afterRmtree (tmpDir 0)) := by
      unfold handle_generate
      simp only [M.bind_ok (M.tryCatch_ok hcfg)]
      rw [M.bind_error (manage_tmp_dir_run f (generate_with_block env f req) stA hblock)]
    rw [htop]
    refine ⟨⟨_, rfl⟩, quiet_all_of _ ?_⟩
    obtain ⟨t, hte, htq⟩ := hq
    intro ev hev
    have hev' : ev ∈ (stB.events ++ t) ++ [Event.rmtreeE (tmpDir 0)] := by
      simpa [St.afterRmtree, hte] using hev
    rcases List.mem_append.mp hev' with h1 | h2
    · rcases List.mem_append.mp h1 with h3 | h4
      · rw [hstBev] at h3
        rcases List.mem_cons.mp h3 with rfl | h5
        · rfl
        · rcases List.mem_cons.mp h5 with rfl | h6
          · rfl
          · cases h6
      · exact htq ev h4
    · rcases List.mem_singleton.mp h2 with rfl
      rfl
  · -- parent directories created; a download task fails and gather re-raises
    set pairs : List (String × FsPath) := req.parent_individuals.map
      (fun p => (p.genotype_get_url, tmpDir 0 ++ ["parents", p.id])) with hpairs
    set s3 : St := { stB with
      dirs := stB.dirs ++ req.parent_individuals.map (fun p => tmpDir 0 ++ ["parents", p.id])
      events := stB.events
        ++ req.parent_individuals.map (fun p => .makedirsE (tmpDir 0 ++ ["parents", p.id])) }
      with hs3
    have hDL := runAll_download env pairs s3
      (by intro pr hpr; rfl)
      (by
        intro pr hpr hmem
        obtain ⟨p, hp, hpr'⟩ := List.mem_map.mp hpr
        have hlen : (pr.2 ++ ["genotype"]).length = 4 := by
          rw [← hpr']
          simp [tmpDir]
        have hdirs3 : s3.dirs = stB.dirs
            ++ req.parent_individuals.map (fun p => tmpDir 0 ++ ["parents", p.id]) := rfl
        rw [hdirs3, hstBdirs] at hmem
        simp only [List.mem_append, List.mem_singleton] at hmem
        rcases hmem with h1 | h2
        · rw [h1] at hlen
          simp [tmpDir] at hlen
        · obtain ⟨q, hq', heq⟩ := List.mem_map.mp h2
          rw [← heq] at hlen
          simp [tmpDir] at hlen)
      (by
        rw [hpairs, List.map_map]
        have hco : ((fun pr : String × FsPath => pr.2 ++ ["genotype"]) ∘
            (fun p : GenerateParentIndividualInput =>
              (p.genotype_get_url, tmpDir 0 ++ ["parents", p.id])))
            = (fun l : FsPath => l ++ ["genotype"]) ∘
              (fun p : GenerateParentIndividualInput => tmpDir 0 ++ ["parents", p.id]) := rfl
        rw [hco, ← List.map_map]
        exact hnodup.map (fun a b hab => List.append_left_injective _ hab))
    have hresmem : Except.error (dlErr (env.dl p0.genotype_get_url))
        ∈ pairs.map (fun pr =>
            match env.dl pr.1 with
            | DlOutcome.ok => Except.ok (pr.2 ++ ["genotype"])
            | o => Except.error (dlErr o)) := by
      refine List.mem_map.mpr ⟨(p0.genotype_get_url, tmpDir 0 ++ ["parents", p0.id]),
        List.mem_map_of_mem _ hp0, ?_⟩
      cases hdl : env.dl p0.genotype_get_url <;> first | rfl | exact absurd hdl hfail0
    rw [← hDL.1] at hresmem
    obtain ⟨e', he'⟩ := firstErrorOrList_error_of_mem hresmem
    have hdown : download_and_unpack_genotypes env pairs s3
        = (.error e',
           { s3 with
             dirs := s3.dirs ++ (pairs.filter (fun pr => env.dl pr.1 == .ok)).map
                 (fun pr => pr.2 ++ ["genotype"])
             events := s3.events ++ pairs.map (fun pr => .httpGet pr.1) }) := by
      show (firstErrorOrList (runAll (pairs.map fun pr =>
            download_and_unpack_genotype env pr.1 pr.2) s3).1,
          (runAll (pairs.map fun pr => download_and_unpack_genotype env pr.1 pr.2) s3).2)
          = _
      rw [he', hDL.2]
    have hblock : generate_with_block env f req (tmpDir 0) stB
        = (.error (.httpExc 500 ("Failed to create new population: " ++ e'.str)),
           { s3 with
             dirs := s3.dirs ++ (pairs.filter (fun pr => env.dl pr.1 == .ok)).map
                 (fun pr => pr.2 ++ ["genotype"])
             events := s3.events ++ pairs.map (fun pr => .httpGet pr.1) }) := by
      unfold generate_with_block
      rw [M.tryCatch_error ((M.bind_ok hrun).trans (M.bind_error hdown))]
      rfl
    have htop : handle_generate env f req St.init
        = (.error (.httpExc 500 ("Failed to create new population: " ++ e'.str)),
           St.afterRmtree
             { s3 with
               dirs := s3.dirs ++ (pairs.filter (fun pr => env.dl pr.1 == .ok)).map
                   (fun pr => pr.2 ++ ["genotype"])
               events := s3.events ++ pairs.map (fun pr => .httpGet pr.1) }
             (tmpDir 0)) := by
      unfold handle_generate
      simp only [M.bind_ok (M.tryCatch_ok hcfg)]
      rw [M.bind_error (manage_tmp_dir_run f (generate_with_block env f req) stA hblock)]
    rw [htop]
    refine ⟨⟨_, rfl⟩, quiet_all_of _ ?_⟩
    intro ev hev
    have hev' : ev ∈ ((s3.events ++ pairs.map (fun pr => .httpGet pr.1))
        ++ [Event.rmtreeE (tmpDir 0)]) := by
      simpa [St.afterRmtree] using hev
    rcases List.mem_append.mp hev' with h1 | h2
    · rcases List.mem_append.mp h1 with h3 | h4
      · have hs3ev : s3.events = stB.events
            ++ req.parent_individuals.map
              (fun p => Event.makedirsE (tmpDir 0 ++ ["parents", p.id])) := rfl
        rw [hs3ev] at h3
        rcases List.mem_append.mp h3 with h5 | h6
        · rw [hstBev] at h5
          rcases List.mem_cons.mp h5 with rfl | h7
          · rfl
          · rcases List.mem_cons.mp h7 with rfl | h8
            · rfl
            · cases h8
        · obtain ⟨q, _, heq⟩ := List.mem_map.mp h6
          rw [← heq]; rfl
      · obtain ⟨q, _, heq⟩ := List.mem_map.mp h4
        rw [← heq]; rfl
    · rcases List.mem_singleton.mp h2 with rfl
      rfl

theorem generate_parent_failure_aborts_witness :
    (∃ d, (handle_generate envC2 false reqC6 St.init).1 = .error (.httpExc 500 d)) ∧
      ∀ e ∈ (handle_generate envC2 false reqC6 St.init).2.events,
        e.isModuleGenerate = false ∧ e.isHttpPut = false :=
  generate_parent_failure_aborts envC2 false reqC6 cfg0 (by decide)
    ⟨⟨"p2", "g2"⟩, by decide, by decide⟩

theorem get_config_error (env : Env) (name : String) (s : St) (e : PyErr)
    (hc : env.moduleConfigResult name = .error e) :
    ∃ e', get_config_from_request env name s
      = (.error e', { s with events := s.events ++ [.moduleConfig name] }) := by
  unfold get_config_from_request
  rw [M.bind_ok (show M.emit (.moduleConfig name) s
    = (.ok (), { s with events := s.events ++ [.moduleConfig name] }) from rfl)]
  rw [hc]
  cases e <;> exact ⟨_, rfl⟩

theorem quiet_all_of_eval (l : List Event) (h : ∀ ev ∈ l, ev.quiet = true) :
    ∀ ev ∈ l, ev.isModuleEvaluate = false ∧ ev.isHttpPut = false :=
  fun ev hev => ⟨(quiet_spec (h ev hev)).2.2, (quiet_spec (h ev hev)).1⟩

/-- C10.  When no individual survives the download/unpack phase — every
download fails, or the request's individual list is empty — the module's
evaluate is never invoked and no phenotype upload is attempted, yet the
response still carries exactly one entry per originally requested individual.
(The configuration-failure path is covered too: it also answers one entry per
individual without touching the module.) -/
theorem evaluate_no_survivors_skips_module (env : Env) (f : Bool)
    (req : EvaluateRequest)
    (hfail : ∀ ind ∈ req.individuals, env.dl ind.genotype_get_url ≠ .ok) :
    (∃ resp, (handle_evaluate env f req St.init).1 = .ok resp ∧
        resp.individuals.length = req.individuals.length) ∧
      ∀ e ∈ (handle_evaluate env f req St.init).2.events,
        e.isModuleEvaluate = false ∧ e.isHttpPut = false := by
  obtain ⟨cname, inds⟩ := req
  cases hcfg : env.moduleConfigResult cname with
  | error ecfg =>
    obtain ⟨e', hgc⟩ := get_config_error env cname St.init ecfg hcfg
    have htop : handle_evaluate env f ⟨cname, inds⟩ St.init
        = (.ok { individuals := inds.map fun ind =>
              { id := ind.id, status := "error",
                message := some ("Configuration error: " ++ e'.str) } },
           ⟨0, [], [], [], [Event.moduleConfig cname]⟩) := by
      unfold handle_evaluate
      rw [M.attempt_error hgc]
      rfl
    rw [htop]
    refine ⟨⟨_, rfl, by simp⟩, quiet_all_of_eval _ ?_⟩
    intro ev hev
    rcases List.mem_singleton.mp hev with rfl
    rfl
  | ok cfg =>
    have hgc : get_config_from_request env cname St.init
        = (.ok cfg, ⟨0, [], [], [], [Event.moduleConfig cname]⟩) := by
      rw [get_config_ok env cname cfg St.init hcfg]
      rfl
    set stA : St := ⟨0, [], [], [], [Event.moduleConfig cname]⟩ with hstA
    set stB : St := stA.afterMkdtemp with hstB
    have hstBev : stB.events
        = [Event.moduleConfig cname, Event.mkdtempE (tmpDir 0)] := rfl
    have hstBdirs : stB.dirs = [tmpDir 0] := rfl
    rcases evalMkDirs_run (tmpDir 0) inds stB with
      ⟨e, s', hrun, hq, hfi, hco, hde⟩ | ⟨hrun, hnodup, hfresh⟩
    · -- the per-individual directory loop raised: catch-all answers per-item errors
      have hblock : evaluate_with_block env ⟨cname, inds⟩ cfg (tmpDir 0) stB
          = (.ok { individuals := inds.map fun ind =>
                { id := ind.id, status := "error", message := some e.str } }, s') := by
        unfold evaluate_with_block
        rw [M.tryCatch_error (M.bind_error hrun)]
        rfl
      have htop : handle_evaluate env f ⟨cname, inds⟩ St.init
          = (.ok { individuals := inds.map fun ind =>
                { id := ind.id, status := "error", message := some e.str } },
             s'.afterRmtree (tmpDir 0)) := by
        unfold handle_evaluate
        rw [M.attempt_ok hgc]
        exact manage_tmp_dir_run f (evaluate_with_block env ⟨cname, inds⟩ cfg) stA hblock
      rw [htop]
      refine ⟨⟨_, rfl, by simp⟩, quiet_all_of_eval _ ?_⟩
      obtain ⟨t, hte, htq⟩ := hq
      intro ev hev
      have hev' : ev ∈ (stB.events ++ t) ++ [Event.rmtreeE (tmpDir 0)] := by
        simpa [St.afterRmtree, hte] using hev
      rcases List.mem_append.mp hev' with h1 | h2
      · rcases List.mem_append.mp h1 with h3 | h4
        · rw [hstBev] at h3
          rcases List.mem_cons.mp h3 with rfl | h5
          · rfl
          · rcases List.mem_cons.mp h5 with rfl | h6
            · rfl
            · cases h6
        · exact htq ev h4
      · rcases List.mem_singleton.mp h2 with rfl
        rfl
    · cases inds with
      | nil =>
        have hblock : evaluate_with_block env ⟨cname, []⟩ cfg (tmpDir 0) stB
            = (.ok { individuals := [] }, stB) := rfl
        have htop : handle_evaluate env f ⟨cname, []⟩ St.init
            = (.ok { individuals := [] }, stB.afterRmtree (tmpDir 0)) := by
          unfold handle_evaluate
          rw [M.attempt_ok hgc]
          exact manage_tmp_dir_run f (evaluate_with_block env ⟨cname, []⟩ cfg) stA hblock
        rw [htop]
        refine ⟨⟨_, rfl, by simp⟩, quiet_all_of_eval _ ?_⟩
        intro ev hev
        have hev' : ev ∈ stB.events ++ [Event.rmtreeE (tmpDir 0)] := by
          simpa [St.afterRmtree] using hev
        rcases List.mem_append.mp hev' with h1 | h2
        · rw [hstBev] at h1
          rcases List.mem_cons.mp h1 with rfl | h5
          · rfl
          · rcases List.mem_cons.mp h5 with rfl | h6
            · rfl
            · cases h6
        · rcases List.mem_singleton.mp h2 with rfl
          rfl
      | cons ind0 rest =>
        set inds := ind0 :: rest with hinds
        set pairs : List (String × FsPath) := inds.map
          (fun ind => (ind.genotype_get_url, tmpDir 0 ++ [ind.id])) with hpairs
        set s3 : St := { stB with
          dirs := stB.dirs ++ inds.map (fun ind => tmpDir 0 ++ [ind.id])
          events := stB.events
            ++ inds.map (fun ind => .makedirsE (tmpDir 0 ++ [ind.id])) } with hs3
        have hDL := runAll_download env pairs s3
          (by intro pr hpr; rfl)
          (by
            intro pr hpr hmem
            obtain ⟨p, hp, hpr'⟩ := List.mem_map.mp hpr
            have hlen : (pr.2 ++ ["genotype"]).length = 3 := by
              rw [← hpr']
              simp [tmpDir]
            have hdirs3 : s3.dirs = stB.dirs
                ++ inds.map (fun ind => tmpDir 0 ++ [ind.id]) := rfl
            rw [hdirs3, hstBdirs] at hmem
            simp only [List.mem_append, List.mem_singleton] at hmem
            rcases hmem with h1 | h2
            · rw [h1] at hlen
              simp [tmpDir] at hlen
            · obtain ⟨q, hq', heq⟩ := List.mem_map.mp h2
              rw [← heq] at hlen
              simp [tmpDir] at hlen)
          (by
            rw [hpairs, List.map_map]
            have hco : ((fun pr : String × FsPath => pr.2 ++ ["genotype"]) ∘
                (fun ind : EvaluateIndividualInput =>
                  (ind.genotype_get_url, tmpDir 0 ++ [ind.id])))
                = (fun l : FsPath => l ++ ["genotype"]) ∘
                  (fun ind : EvaluateIndividualInput => tmpDir 0 ++ [ind.id]) := rfl
            rw [hco, ← List.map_map]
            exact hnodup.map (fun a b hab => List.append_left_injective _ hab))
        have hresmem : Except.error (dlErr (env.dl ind0.genotype_get_url))
            ∈ pairs.map (fun pr =>
                match env.dl pr.1 with
                | DlOutcome.ok => Except.ok (pr.2 ++ ["genotype"])
                | o => Except.error (dlErr o)) := by
          refine List.mem_map.mpr ⟨(ind0.genotype_get_url, tmpDir 0 ++ [ind0.id]),
            List.mem_map_of_mem _ (by rw [hinds]; exact List.mem_cons_self ind0 rest), ?_⟩
          have hfail0 : env.dl ind0.genotype_get_url ≠ .ok :=
            hfail ind0 (by rw [hinds]; exact List.mem_cons_self ind0 rest)
          cases hdl : env.dl ind0.genotype_get_url <;>
            first | rfl | exact absurd hdl hfail0
        rw [← hDL.1] at hresmem
        obtain ⟨e', he'⟩ := firstErrorOrList_error_of_mem hresmem
        have hdown : download_and_unpack_genotypes env pairs s3
            = (.error e',
               { s3 with
                 dirs := s3.dirs ++ (pairs.filter (fun pr => env.dl pr.1 == .ok)).map
                     (fun pr => pr.2 ++ ["genotype"])
                 events := s3.events ++ pairs.map (fun pr => .httpGet pr.1) }) := by
          show (firstErrorOrList (runAll (pairs.map fun pr =>
                download_and_unpack_genotype env pr.1 pr.2) s3).1,
              (runAll (pairs.map fun pr => download_and_unpack_genotype env pr.1 pr.2) s3).2)
              = _
          rw [he', hDL.2]
        have hblock : evaluate_with_block env ⟨cname, inds⟩ cfg (tmpDir 0) stB
            = (.ok { individuals := inds.map fun ind =>
                  { id := ind.id, status := "error", message := some e'.str } },
               { s3 with
                 dirs := s3.dirs ++ (pairs.filter (fun pr => env.dl pr.1 == .ok)).map
                     (fun pr => pr.2 ++ ["genotype"])
                 events := s3.events ++ pairs.map (fun pr => .httpGet pr.1) }) := by
          unfold evaluate_with_block
          rw [M.tryCatch_error ((M.bind_ok hrun).trans (M.bind_error hdown))]
          rfl
        have htop : handle_evaluate env f ⟨cname, inds⟩ St.init
            = (.ok { individuals := inds.map fun ind =>
                  { id := ind.id, status := "error", message := some e'.str } },
               St.afterRmtree
                 { s3 with
                   dirs := s3.dirs ++ (pairs.filter (fun pr => env.dl pr.1 == .ok)).map
                       (fun pr => pr.2 ++ ["genotype"])
                   events := s3.events ++ pairs.map (fun pr => .httpGet pr.1) }
                 (tmpDir 0)) := by
          unfold handle_evaluate
          rw [M.attempt_ok hgc]
          exact manage_tmp_dir_run f (evaluate_with_block env ⟨cname, inds⟩ cfg) stA hblock
        rw [htop]
        refine ⟨⟨_, rfl, by simp⟩, quiet_all_of_eval _ ?_⟩
        intro ev hev
        have hev' : ev ∈ ((s3.events ++ pairs.map (fun pr => .httpGet pr.1))
            ++ [Event.rmtreeE (tmpDir 0)]) := by
          simpa [St.afterRmtree] using hev
        rcases List.mem_append.mp hev' with h1 | h2
        · rcases List.mem_append.mp h1 with h3 | h4
          · have hs3ev : s3.events = stB.events
                ++ inds.map (fun ind => Event.makedirsE (tmpDir 0 ++ [ind.id])) := rfl
            rw [hs3ev] at h3
            rcases List.mem_append.mp h3 with h5 | h6
            · rw [hstBev] at h5
              rcases List.mem_cons.mp h5 with rfl | h7
              · rfl
              · rcases List.mem_cons.mp h7 with rfl | h8
                · rfl
                · cases h8
            · obtain ⟨q, _, heq⟩ := List.mem_map.mp h6
              rw [← heq]; rfl
          · obtain ⟨q, _, heq⟩ := List.mem_map.mp h4
            rw [← heq]; rfl
        · rcases List.mem_singleton.mp h2 with rfl
          rfl

theorem evaluate_no_survivors_skips_module_witness :
    (∃ resp, (handle_evaluate envC10 false reqC2 St.init).1 = .ok resp ∧
        resp.individuals.length = reqC2.individuals.length) ∧
      ∀ e ∈ (handle_evaluate envC10 false reqC2 St.init).2.events,
        e.isModuleEvaluate = false ∧ e.isHttpPut = false :=
  evaluate_no_survivors_skips_module envC10 false reqC2 (by decide)

theorem tmpDir_isPrefixOf_eq_false {k n : Nat} (hne : k ≠ n) (suffix : List String) :
    (tmpDir k).isPrefixOf (tmpDir n ++ suffix) = false := by
  have hs : (("tmp" ++ String.mk (List.replicate k 'x'))
      == ("tmp" ++ String.mk (List.replicate n 'x'))) = false := by
    refine beq_eq_false_iff_ne.mpr ?_
    intro h
    exact hne (tmpDir_inj (by rw [tmpDir, tmpDir, h]))
  simp [tmpDir, List.isPrefixOf, hs]

theorem module_generate_call_ok (env : Env) (pd cd : List FsPath) (s : St)
    (parentage : List (List Nat)) (h : env.moduleGenerate pd cd = .ok parentage) :
    module_generate_call env pd cd s
      = (.ok parentage, { s with events := s.events ++ [.moduleGenerate pd cd] }) := by
  simp [module_generate_call, M.bind, M.emit, M.pure, h]

/-- One pack-and-upload task on a clean state: archives the `genotype/`
subtree into a fresh temporary directory, PUTs it, and removes the temporary
tree, leaving dirs and files as they were. -/
theorem pack_and_upload_genotype_run (env : Env) (f : Bool) (source_dir : FsPath)
    (put_url : String) (s : St)
    (hdir : source_dir ++ ["genotype"] ∈ s.dirs)
    (hok : 200 ≤ env.putStatus put_url ∧ env.putStatus put_url < 300)
    (hfreshd : ∀ d ∈ s.dirs, (tmpDir s.counter).isPrefixOf d = false)
    (hfreshf : ∀ fe ∈ s.files, (tmpDir s.counter).isPrefixOf fe.path = false) :
    pack_and_upload_genotype env f source_dir put_url s
      = (.ok (), { s with
          counter := s.counter + 1
          deleted := s.deleted ++ [tmpDir s.counter]
          events := s.events ++ [.mkdtempE (tmpDir s.counter),
            .httpPut put_url (tmpDir s.counter ++ ["genotype.tar"])
              "application/x-tar" (env.packSize source_dir),
            .rmtreeE (tmpDir s.counter)] }) := by
  have harch : make_archive env (tmpDir s.counter ++ ["genotype"]) source_dir "genotype"
      s.afterMkdtemp
      = (.ok (tmpDir s.counter ++ ["genotype.tar"]),
         { s.afterMkdtemp with files := s.afterMkdtemp.files
             ++ [⟨tmpDir s.counter ++ ["genotype.tar"], env.packSize source_dir,
                 .packed source_dir⟩] }) := by
    have hmem : source_dir ++ ["genotype"] ∈ s.afterMkdtemp.dirs :=
      List.mem_append.mpr (Or.inl hdir)
    simp only [make_archive, hmem, if_true]
    rw [List.dropLast_concat, List.getLastD_concat]
    rfl
  have hprefix_tar : (tmpDir s.counter).isPrefixOf
      (tmpDir s.counter ++ ["genotype.tar"]) = true :=
    List.isPrefixOf_iff_prefix.mpr ⟨["genotype.tar"], rfl⟩
  have hprefix_self : (tmpDir s.counter).isPrefixOf (tmpDir s.counter) = true :=
    List.isPrefixOf_iff_prefix.mpr List.prefix_rfl
  have hnone : List.find? (fun x => x.path == tmpDir s.counter ++ ["genotype.tar"])
      s.afterMkdtemp.files = none := by
    refine List.find?_eq_none.mpr ?_
    intro fe hfe hbeq
    have hbeq' : fe.path = tmpDir s.counter ++ ["genotype.tar"] := by
      simpa using hbeq
    have hfr := hfreshf fe hfe
    rw [hbeq', hprefix_tar] at hfr
    cases hfr
  have hfind : List.find? (fun x => x.path == tmpDir s.counter ++ ["genotype.tar"])
      (s.afterMkdtemp.files
        ++ [⟨tmpDir s.counter ++ ["genotype.tar"], env.packSize source_dir,
            .packed source_dir⟩])
      = some ⟨tmpDir s.counter ++ ["genotype.tar"], env.packSize source_dir,
          .packed source_dir⟩ := by
    rw [List.find?_append, hnone]
    simp
  have hup : upload_file_streamed env put_url (tmpDir s.counter ++ ["genotype.tar"])
      "application/x-tar"
      { s.afterMkdtemp with files := s.afterMkdtemp.files
          ++ [⟨tmpDir s.counter ++ ["genotype.tar"], env.packSize source_dir,
              .packed source_dir⟩] }
      = (.ok (),
         { s.afterMkdtemp with
           files := s.afterMkdtemp.files
             ++ [⟨tmpDir s.counter ++ ["genotype.tar"], env.packSize source_dir,
                 .packed source_dir⟩]
           events := s.afterMkdtemp.events
             ++ [.httpPut put_url (tmpDir s.counter ++ ["genotype.tar"])
                 "application/x-tar" (env.packSize source_dir)] }) := by
    simp [upload_file_streamed, stat, M.bind, M.emit, M.pure, hfind, hok]
  have hbody : (M.bind (make_archive env (tmpDir s.counter ++ ["genotype"])
      source_dir "genotype") fun archive_path =>
        upload_file_streamed env put_url archive_path "application/x-tar")
      s.afterMkdtemp
      = (.ok (),
         { s.afterMkdtemp with
           files := s.afterMkdtemp.files
             ++ [⟨tmpDir s.counter ++ ["genotype.tar"], env.packSize source_dir,
                 .packed source_dir⟩]
           events := s.afterMkdtemp.events
             ++ [.httpPut put_url (tmpDir s.counter ++ ["genotype.tar"])
                 "application/x-tar" (env.packSize source_dir)] }) := by
    rw [M.bind_ok harch]
    exact hup
  unfold pack_and_upload_genotype
  rw [manage_tmp_dir_run f _ s hbody]
  refine congrArg _ ?_
  apply St.ext
  · rfl
  · show ((s.dirs ++ [tmpDir s.counter]).filter
        (fun d => !(tmpDir s.counter).isPrefixOf d)) = s.dirs
    rw [List.filter_append]
    have h1 : s.dirs.filter (fun d => !(tmpDir s.counter).isPrefixOf d) = s.dirs :=
      List.filter_eq_self.mpr (fun d hd => by simp [hfreshd d hd])
    have h2 : ([tmpDir s.counter] : List FsPath).filter
        (fun d => !(tmpDir s.counter).isPrefixOf d) = [] := by
      simp [hprefix_self]
    rw [h1, h2, List.append_nil]
  · show ((s.files ++ [(⟨tmpDir s.counter ++ ["genotype.tar"], env.packSize source_dir,
        .packed source_dir⟩ : FileEntry)]).filter
        (fun fe => !(tmpDir s.counter).isPrefixOf fe.path)) = s.files
    rw [List.filter_append]
    have h1 : s.files.filter (fun fe => !(tmpDir s.counter).isPrefixOf fe.path) = s.files :=
      List.filter_eq_self.mpr (fun fe hfe => by simp [hfreshf fe hfe])
    have h2 : ([(⟨tmpDir s.counter ++ ["genotype.tar"], env.packSize source_dir,
        .packed source_dir⟩ : FileEntry)]).filter
        (fun fe => !(tmpDir s.counter).isPrefixOf fe.path) = [] := by
      simp [hprefix_tar]
    rw [h1, h2, List.append_nil]
  · rfl
  · show (s.afterMkdtemp.events
        ++ [Event.httpPut put_url (tmpDir s.counter ++ ["genotype.tar"])
            "application/x-tar" (env.packSize source_dir)])
        ++ [Event.rmtreeE (tmpDir s.counter)]
      = s.events ++ [Event.mkdtempE (tmpDir s.counter),
          Event.httpPut put_url (tmpDir s.counter ++ ["genotype.tar"])
            "application/x-tar" (env.packSize source_dir),
          Event.rmtreeE (tmpDir s.counter)]
    show ((s.events ++ [Event.mkdtempE (tmpDir s.counter)])
        ++ [Event.httpPut put_url (tmpDir s.counter ++ ["genotype.tar"])
            "application/x-tar" (env.packSize source_dir)])
        ++ [Event.rmtreeE (tmpDir s.counter)] = _
    simp [List.append_assoc]

/-- Running every pack-and-upload task of a batch on a clean state: all tasks
succeed, and dirs/files are left as they were (each task's temporary tree is
removed again). -/
theorem runAll_pack (env : Env) (f : Bool) :
    ∀ (prs : List (FsPath × String)) (s : St),
      (∀ pr ∈ prs, pr.1 ++ ["genotype"] ∈ s.dirs) →
      (∀ pr ∈ prs, 200 ≤ env.putStatus pr.2 ∧ env.putStatus pr.2 < 300) →
      (∀ k, s.counter ≤ k → ∀ d ∈ s.dirs, (tmpDir k).isPrefixOf d = false) →
      (∀ k, s.counter ≤ k → ∀ fe ∈ s.files, (tmpDir k).isPrefixOf fe.path = false) →
      (runAll (prs.map fun pr => pack_and_upload_genotype env f pr.1 pr.2) s).1
          = prs.map (fun _ => Except.ok ()) ∧
        ((runAll (prs.map fun pr => pack_and_upload_genotype env f pr.1 pr.2) s).2).dirs
          = s.dirs ∧
        ((runAll (prs.map fun pr => pack_and_upload_genotype env f pr.1 pr.2) s).2).files
          = s.files := by
  intro prs
  induction prs with
  | nil => intro s _ _ _ _; exact ⟨rfl, rfl, rfl⟩
  | cons pr rest ih =>
    intro s hdir hok hfd hff
    have hstep := pack_and_upload_genotype_run env f pr.1 pr.2 s
      (hdir pr (List.mem_cons_self pr rest))
      (hok pr (List.mem_cons_self pr rest))
      (hfd s.counter (Nat.le_refl _))
      (hff s.counter (Nat.le_refl _))
    have hrest := ih
      { s with
        counter := s.counter + 1
        deleted := s.deleted ++ [tmpDir s.counter]
        events := s.events ++ [.mkdtempE (tmpDir s.counter),
          .httpPut pr.2 (tmpDir s.counter ++ ["genotype.tar"])
            "application/x-tar" (env.packSize pr.1),
          .rmtreeE (tmpDir s.counter)] }
      (fun q hq => hdir q (List.mem_cons_of_mem _ hq))
      (fun q hq => hok q (List.mem_cons_of_mem _ hq))
      (fun k hk d hd => hfd k (Nat.le_of_succ_le hk) d hd)
      (fun k hk fe hfe => hff k (Nat.le_of_succ_le hk) fe hfe)
    simp only [List.map_cons, runAll, hstep]
    exact ⟨by rw [hrest.1], hrest.2.1, hrest.2.2⟩

theorem pack_and_upload_genotypes_run (env : Env) (f : Bool)
    (prs : List (FsPath × String)) (s : St)
    (hdir : ∀ pr ∈ prs, pr.1 ++ ["genotype"] ∈ s.dirs)
    (hok : ∀ pr ∈ prs, 200 ≤ env.putStatus pr.2 ∧ env.putStatus pr.2 < 300)
    (hfd : ∀ k, s.counter ≤ k → ∀ d ∈ s.dirs, (tmpDir k).isPrefixOf d = false)
    (hff : ∀ k, s.counter ≤ k → ∀ fe ∈ s.files, (tmpDir k).isPrefixOf fe.path = false) :
    ∃ s', pack_and_upload_genotypes env f prs s = (.ok (), s') := by
  obtain ⟨h1, _, _⟩ := runAll_pack env f prs s hdir hok hfd hff
  refine ⟨(runAll (prs.map fun pr => pack_and_upload_genotype env f pr.1 pr.2) s).2, ?_⟩
  unfold pack_and_upload_genotypes
  have hg : asyncio_gather (prs.map fun pr => pack_and_upload_genotype env f pr.1 pr.2) s
      = (.ok (prs.map fun _ => ()),
         (runAll (prs.map fun pr => pack_and_upload_genotype env f pr.1 pr.2) s).2) := by
    show (firstErrorOrList (runAll (prs.map fun pr =>
          pack_and_upload_genotype env f pr.1 pr.2) s).1,
        (runAll (prs.map fun pr => pack_and_upload_genotype env f pr.1 pr.2) s).2) = _
    rw [h1, firstErrorOrList_map_ok prs (fun _ => Except.ok ()) (fun _ => ())
      (fun _ _ => rfl)]
  rw [M.bind_ok hg]
  rfl

theorem mapPyIndex_ok (pids : List String) :
    ∀ (l : List Nat) (s : St), (∀ p ∈ l, p < pids.length) →
      mapPyIndex pids l s = (.ok (l.map fun p => pids.getD p ""), s) := by
  intro l
  induction l with
  | nil => intro s _; rfl
  | cons p rest ih =>
    intro s hb
    have hp := hb p (List.mem_cons_self p rest)
    have hidx : pyIndex pids p s = (.ok (pids.getD p ""), s) := by
      simp [pyIndex, hp, M.pure, List.getD_eq_getElem?_getD, List.getElem?_eq_getElem hp]
    simp only [mapPyIndex, M.bind, hidx, ih s (fun q hq => hb q (List.mem_cons_of_mem _ hq)),
      M.pure, List.map_cons]

/-- The response-building loop of `handle_generate` on a parentage map that
covers every child with in-range indices. -/
theorem buildGenOuts_ok (pids : List String) (parentage : List (List Nat))
    (hbound : ∀ l ∈ parentage, ∀ p ∈ l, p < pids.length) :
    ∀ (cs : List GenerateChildIndividualInput) (i : Nat) (s : St),
      i + cs.length ≤ parentage.length →
      buildGenOuts pids parentage i cs s
        = (.ok (List.zipWith
            (fun c pl => { id := c.id, parent_ids := pl.map fun p => pids.getD p "" })
            cs (parentage.drop i)), s) := by
  intro cs
  induction cs with
  | nil => intro i s _; simp [buildGenOuts, M.pure]
  | cons c rest ih =>
    intro i s hlen
    have hi : i < parentage.length := by
      have := hlen
      simp only [List.length_cons] at this
      omega
    have hidx : pyIndex parentage i s = (.ok (parentage.get ⟨i, hi⟩), s) := by
      simp [pyIndex, hi, M.pure]
    have hget := hbound (parentage.get ⟨i, hi⟩) (parentage.get_mem _ _)
    have hmap := mapPyIndex_ok pids (parentage.get ⟨i, hi⟩) s hget
    have hrest := ih (i + 1) s (by simp only [List.length_cons] at hlen; omega)
    have hdrop : parentage.drop i = parentage.get ⟨i, hi⟩ :: parentage.drop (i + 1) :=
      List.drop_eq_getElem_cons hi
    simp only [buildGenOuts, M.bind, hidx, hmap, hrest, M.pure, hdrop,
      List.zipWith_cons_cons]

/-- C8.  On a fully successful generate request with distinct parent and
child ids, the response carries one entry per requested child in request
order, and child i's `parent_ids` are exactly the ids of the parents at the
indices of the module's parentage entry for child i (indices into the
request's parent list, in the order the module returned them). -/
theorem generate_success_response (env : Env) (f : Bool) (req : GenerateRequest)
    (cfg : Config) (parentage : List (List Nat))
    (hc : env.moduleConfigResult req.config_name = .ok cfg)
    (hpnodup : (req.parent_individuals.map (·.id)).Nodup)
    (hcnodup : (req.child_individuals.map (·.id)).Nodup)
    (hdl : ∀ p ∈ req.parent_individuals, env.dl p.genotype_get_url = .ok)
    (hmod : env.moduleGenerate
        (req.parent_individuals.map fun p => tmpDir 0 ++ ["parents", p.id] ++ ["genotype"])
        (req.child_individuals.map fun c => tmpDir 0 ++ ["children", c.id, "genotype"])
        = .ok parentage)
    (hplen : parentage.length = req.child_individuals.length)
    (hbound : ∀ l ∈ parentage, ∀ p ∈ l, p < req.parent_individuals.length)
    (hup : ∀ c ∈ req.child_individuals,
        200 ≤ env.putStatus c.genotype_put_url ∧ env.putStatus c.genotype_put_url < 300) :
    (∃ s', handle_generate env f req St.init
        = (.ok { child_individuals :=
                   List.zipWith
                     (fun c pl =>
                        { id := c.id
                          parent_ids :=
                            pl.map fun p => (req.parent_individuals.map (·.id)).getD p "" })
                     req.child_individuals parentage }, s')) ∧
      (List.zipWith
          (fun (c : GenerateChildIndividualInput) (pl : List Nat) =>
             ({ id := c.id
                parent_ids :=
                  pl.map fun p => (req.parent_individuals.map (·.id)).getD p "" }
              : GenerateChildIndividualOutput))
          req.child_individuals parentage).length = req.child_individuals.length := by
  have hcfg : get_config_from_request env req.config_name St.init
      = (.ok cfg, ⟨0, [], [], [], [Event.moduleConfig req.config_name]⟩) := by
    rw [get_config_ok env req.config_name cfg St.init hc]
    rfl
  set stA : St := ⟨0, [], [], [], [Event.moduleConfig req.config_name]⟩ with hstA
  set stB : St := stA.afterMkdtemp with hstB
  have hstBdirs : stB.dirs = [tmpDir 0] := rfl
  -- step 2: parent directory creation succeeds (ids are distinct)
  have hpathinj : Function.Injective (fun i : String => tmpDir 0 ++ ["parents", i]) := by
    intro a b hab
    have h2 := List.append_right_injective (tmpDir 0) hab
    simpa using h2
  have hpn : (req.parent_individuals.map (fun p => tmpDir 0 ++ ["parents", p.id])).Nodup := by
    have hmm : req.parent_individuals.map (fun p => tmpDir 0 ++ ["parents", p.id])
        = (req.parent_individuals.map (·.id)).map (fun i => tmpDir 0 ++ ["parents", i]) := by
      rw [List.map_map]
      rfl
    rw [hmm]
    exact hpnodup.map hpathinj
  have hpfresh : ∀ p ∈ req.parent_individuals, tmpDir 0 ++ ["parents", p.id] ∉ stB.dirs := by
    intro p hp hmem
    rw [hstBdirs] at hmem
    have hlen := congrArg List.length (List.mem_singleton.mp hmem)
    simp [tmpDir] at hlen
  have hrun := genParentMkDirs_ok (tmpDir 0) req.parent_individuals stB hpn hpfresh
  set pairs : List (String × FsPath) := req.parent_individuals.map
    (fun p => (p.genotype_get_url, tmpDir 0 ++ ["parents", p.id])) with hpairs
  set s3 : St := { stB with
    dirs := stB.dirs ++ req.parent_individuals.map (fun p => tmpDir 0 ++ ["parents", p.id])
    events := stB.events
      ++ req.parent_individuals.map (fun p => .makedirsE (tmpDir 0 ++ ["parents", p.id])) }
    with hs3
  -- step 2 continued: all downloads succeed
  have hDL := runAll_download env pairs s3
    (by intro pr hpr; rfl)
    (by
      intro pr hpr hmem
      obtain ⟨p, hp, hpr'⟩ := List.mem_map.mp hpr
      have hlen : (pr.2 ++ ["genotype"]).length = 4 := by
        rw [← hpr']
        simp [tmpDir]
      have hdirs3 : s3.dirs = stB.dirs
          ++ req.parent_individuals.map (fun p => tmpDir 0 ++ ["parents", p.id]) := rfl
      rw [hdirs3, hstBdirs] at hmem
      simp only [List.mem_append, List.mem_singleton] at hmem
      rcases hmem with h1 | h2
      · rw [h1] at hlen
        simp [tmpDir] at hlen
      · obtain ⟨q, hq', heq⟩ := List.mem_map.mp h2
        rw [← heq] at hlen
        simp [tmpDir] at hlen)
    (by
      rw [hpairs, List.map_map]
      have hco : ((fun pr : String × FsPath => pr.2 ++ ["genotype"]) ∘
          (fun p : GenerateParentIndividualInput =>
            (p.genotype_get_url, tmpDir 0 ++ ["parents", p.id])))
          = (fun l : FsPath => l ++ ["genotype"]) ∘
            (fun p : GenerateParentIndividualInput => tmpDir 0 ++ ["parents", p.id]) := rfl
      rw [hco, ← List.map_map]
      exact hpn.map (fun a b hab => List.append_left_injective _ hab))
  have hallok : ∀ pr ∈ pairs,
      (match env.dl pr.1 with
        | DlOutcome.ok => Except.ok (pr.2 ++ ["genotype"])
        | o => Except.error (dlErr o)) = Except.ok (pr.2 ++ ["genotype"]) := by
    intro pr hpr
    obtain ⟨p, hp, hpr'⟩ := List.mem_map.mp hpr
    have hok : env.dl pr.1 = .ok := by
      rw [← hpr']
      exact hdl p hp
    rw [hok]
  have hfilter : pairs.filter (fun pr => env.dl pr.1 == DlOutcome.ok) = pairs :=
    List.filter_eq_self.mpr (fun pr hpr => by
      obtain ⟨p, hp, hpr'⟩ := List.mem_map.mp hpr
      have hok : env.dl pr.1 = .ok := by
        rw [← hpr']
        exact hdl p hp
      simp [hok])
  have hdown : download_and_unpack_genotypes env pairs s3
      = (.ok (pairs.map fun pr => pr.2 ++ ["genotype"]),
         { s3 with
           dirs := s3.dirs ++ pairs.map (fun pr => pr.2 ++ ["genotype"])
           events := s3.events ++ pairs.map (fun pr => .httpGet pr.1) }) := by
    show (firstErrorOrList (runAll (pairs.map fun pr =>
          download_and_unpack_genotype env pr.1 pr.2) s3).1,
        (runAll (pairs.map fun pr => download_and_unpack_genotype env pr.1 pr.2) s3).2)
        = _
    rw [hDL.1, hDL.2, hfilter,
      firstErrorOrList_map_ok pairs _ (fun pr => pr.2 ++ ["genotype"]) hallok]
  set s4 : St := { s3 with
    dirs := s3.dirs ++ pairs.map (fun pr => pr.2 ++ ["genotype"])
    events := s3.events ++ pairs.map (fun pr => .httpGet pr.1) } with hs4
  -- step 3: child directory creation succeeds (ids are distinct)
  have hcpathinj : Function.Injective
      (fun i : String => tmpDir 0 ++ ["children", i, "genotype"]) := by
    intro a b hab
    have h2 := List.append_right_injective (tmpDir 0) hab
    simpa using h2
  have hcn : (req.child_individuals.map
      (fun c => tmpDir 0 ++ ["children", c.id, "genotype"])).Nodup := by
    have hmm : req.child_individuals.map (fun c => tmpDir 0 ++ ["children", c.id, "genotype"])
        = (req.child_individuals.map (·.id)).map
            (fun i => tmpDir 0 ++ ["children", i, "genotype"]) := by
      rw [List.map_map]
      rfl
    rw [hmm]
    exact hcnodup.map hcpathinj
  have hcfresh : ∀ c ∈ req.child_individuals,
      tmpDir 0 ++ ["children", c.id, "genotype"] ∉ s4.dirs := by
    intro c hcm hmem
    have hdirs4 : s4.dirs = (stB.dirs
        ++ req.parent_individuals.map (fun p => tmpDir 0 ++ ["parents", p.id]))
        ++ pairs.map (fun pr => pr.2 ++ ["genotype"]) := rfl
    rw [hdirs4, hstBdirs] at hmem
    simp only [List.mem_append, List.mem_singleton] at hmem
    rcases hmem with (h1 | h2) | h3
    · have hlen := congrArg List.length h1
      simp [tmpDir] at hlen
    · obtain ⟨q, hq', heq⟩ := List.mem_map.mp h2
      have hlen := congrArg List.length heq
      simp [tmpDir] at hlen
    · obtain ⟨pr, hprm, heq⟩ := List.mem_map.mp h3
      obtain ⟨p, hp, hpr'⟩ := List.mem_map.mp hprm
      rw [← hpr'] at heq
      simp [tmpDir] at heq
  have hchild := genChildMkDirs_ok (tmpDir 0) req.child_individuals s4 hcn hcfresh
  set s5 : St := { s4 with
    dirs := s4.dirs
      ++ req.child_individuals.map (fun c => tmpDir 0 ++ ["children", c.id, "genotype"])
    events := s4.events
      ++ req.child_individuals.map
          (fun c => .makedirsE (tmpDir 0 ++ ["children", c.id, "genotype"])) }
    with hs5
  -- step 4: the module returns the parentage map
  have hpdirs : pairs.map (fun pr => pr.2 ++ ["genotype"])
      = req.parent_individuals.map
          (fun p => tmpDir 0 ++ ["parents", p.id] ++ ["genotype"]) := by
    rw [hpairs, List.map_map]
    rfl
  have hcdirs : (req.child_individuals.map
      (fun c => (c.id, tmpDir 0 ++ ["children", c.id, "genotype"]))).map Prod.snd
      = req.child_individuals.map (fun c => tmpDir 0 ++ ["children", c.id, "genotype"]) := by
    rw [List.map_map]
    rfl
  have hmodok : env.moduleGenerate (pairs.map fun pr => pr.2 ++ ["genotype"])
      ((req.child_individuals.map
        (fun c => (c.id, tmpDir 0 ++ ["children", c.id, "genotype"]))).map Prod.snd)
      = .ok parentage := by
    rw [hpdirs, hcdirs]
    exact hmod
  have hmodcall := module_generate_call_ok env
    (pairs.map fun pr => pr.2 ++ ["genotype"])
    ((req.child_individuals.map
      (fun c => (c.id, tmpDir 0 ++ ["children", c.id, "genotype"]))).map Prod.snd)
    s5 parentage hmodok
  set s6 : St := { s5 with
    events := s5.events ++ [.moduleGenerate
      (pairs.map fun pr => pr.2 ++ ["genotype"])
      ((req.child_individuals.map
        (fun c => (c.id, tmpDir 0 ++ ["children", c.id, "genotype"]))).map Prod.snd)] }
    with hs6
  -- step 5: all child archives upload successfully
  have hcount6 : s6.counter = 1 := rfl
  have hfiles6 : s6.files = [] := rfl
  have hform : ∀ d ∈ s6.dirs, ∃ suffix, d = tmpDir 0 ++ suffix := by
    intro d hd
    have hdirs6 : s6.dirs = ((stB.dirs
        ++ req.parent_individuals.map (fun p => tmpDir 0 ++ ["parents", p.id]))
        ++ pairs.map (fun pr => pr.2 ++ ["genotype"]))
        ++ req.child_individuals.map (fun c => tmpDir 0 ++ ["children", c.id, "genotype"])
        := rfl
    rw [hdirs6, hstBdirs] at hd
    simp only [List.mem_append, List.mem_singleton] at hd
    rcases hd with ((h1 | h2) | h3) | h4
    · exact ⟨[], by rw [h1, List.append_nil]⟩
    · obtain ⟨q, _, heq⟩ := List.mem_map.mp h2
      exact ⟨["parents", q.id], heq.symm⟩
    · obtain ⟨pr, hprm, heq⟩ := List.mem_map.mp h3
      obtain ⟨p, _, hpr'⟩ := List.mem_map.mp hprm
      rw [← hpr'] at heq
      exact ⟨["parents", p.id] ++ ["genotype"], by rw [← heq, List.append_assoc]⟩
    · obtain ⟨c, _, heq⟩ := List.mem_map.mp h4
      exact ⟨["children", c.id, "genotype"], heq.symm⟩
  obtain ⟨s7, hpack⟩ := pack_and_upload_genotypes_run env f
    (req.child_individuals.map fun ind => (tmpDir 0 ++ ["children", ind.id], ind.genotype_put_url))
    s6
    (by
      intro pr hpr
      obtain ⟨c, hcm, hpr'⟩ := List.mem_map.mp hpr
      have heq : pr.1 ++ ["genotype"] = tmpDir 0 ++ ["children", c.id, "genotype"] := by
        rw [← hpr']
        simp
      rw [heq]
      have hdirs6 : s6.dirs = s4.dirs
          ++ req.child_individuals.map (fun c => tmpDir 0 ++ ["children", c.id, "genotype"])
          := rfl
      rw [hdirs6]
      exact List.mem_append.mpr (Or.inr (List.mem_map_of_mem _ hcm)))
    (by
      intro pr hpr
      obtain ⟨c, hcm, hpr'⟩ := List.mem_map.mp hpr
      have : pr.2 = c.genotype_put_url := by rw [← hpr']
      rw [this]
      exact hup c hcm)
    (by
      intro k hk d hd
      obtain ⟨suffix, hsuf⟩ := hform d hd
      rw [hsuf]
      refine tmpDir_isPrefixOf_eq_false ?_ suffix
      rw [hcount6] at hk
      omega)
    (by
      intro k hk fe hfe
      rw [hfiles6] at hfe
      cases hfe)
  -- assemble the with-block and the whole handler
  have hblock : generate_with_block env f req (tmpDir 0) stB = (.ok parentage, s7) := by
    have hbody : (M.bind (genParentMkDirs (tmpDir 0) req.parent_individuals) fun prs =>
        M.bind (download_and_unpack_genotypes env prs) fun download_results =>
        M.bind (genChildMkDirs (tmpDir 0) req.child_individuals) fun child_map =>
        M.bind (module_generate_call env download_results (child_map.map Prod.snd))
          fun parentage_indices =>
        M.bind (pack_and_upload_genotypes env f
          (req.child_individuals.map fun ind =>
            (tmpDir 0 ++ ["children", ind.id], ind.genotype_put_url)))
          fun _ => M.pure parentage_indices) stB = (.ok parentage, s7) := by
      simp only [M.bind_ok hrun, M.bind_ok hdown, M.bind_ok hchild, M.bind_ok hmodcall,
        M.bind_ok hpack]
      rfl
    unfold generate_with_block
    exact M.tryCatch_ok hbody
  have hmanage := manage_tmp_dir_run f (generate_with_block env f req) stA hblock
  have hboundpids : ∀ l ∈ parentage, ∀ p ∈ l,
      p < (req.parent_individuals.map (·.id)).length := by
    intro l hl p hp
    rw [List.length_map]
    exact hbound l hl p hp
  have hbuild := buildGenOuts_ok (req.parent_individuals.map (·.id)) parentage hboundpids
    req.child_individuals 0 (s7.afterRmtree (tmpDir 0))
    (by rw [hplen]; omega)
  rw [List.drop_zero] at hbuild
  constructor
  · refine ⟨s7.afterRmtree (tmpDir 0), ?_⟩
    unfold handle_generate
    simp only [M.bind_ok (M.tryCatch_ok hcfg), M.bind_ok hmanage, M.bind_ok hbuild]
    rfl
  · rw [List.length_zipWith, hplen, Nat.min_self]

theorem generate_success_response_witness :
    (∃ s', handle_generate envC8 false reqC6 St.init
        = (.ok { child_individuals :=
                   List.zipWith
                     (fun c pl =>
                        { id := c.id
                          parent_ids :=
                            pl.map fun p => (reqC6.parent_individuals.map (·.id)).getD p "" })
                     reqC6.child_individuals [[0, 1], [1], [0]] }, s')) ∧
      (List.zipWith
          (fun (c : GenerateChildIndividualInput) (pl : List Nat) =>
             ({ id := c.id
                parent_ids :=
                  pl.map fun p => (reqC6.parent_individuals.map (·.id)).getD p "" }
              : GenerateChildIndividualOutput))
          reqC6.child_individuals [[0, 1], [1], [0]]).length
        = reqC6.child_individuals.length :=
  generate_success_response envC8 false reqC6 cfg0 [[0, 1], [1], [0]]
    (by decide) (by decide) (by decide) (by decide) (by decide) (by decide)
    (by decide) (by decide)

theorem tmpBound_append {c1 c2 : Nat} {t1 t2 : List Event}
    (h1 : ∀ p, (Event.rmtreeE p ∈ t1 ∨ Event.mkdtempE p ∈ t1) →
      ∃ k, p = tmpDir k ∧ c1 ≤ k)
    (h2 : ∀ p, (Event.rmtreeE p ∈ t2 ∨ Event.mkdtempE p ∈ t2) →
      ∃ k, p = tmpDir k ∧ c2 ≤ k)
    (hc : c1 ≤ c2) :
    ∀ p, (Event.rmtreeE p ∈ t1 ++ t2 ∨ Event.mkdtempE p ∈ t1 ++ t2) →
      ∃ k, p = tmpDir k ∧ c1 ≤ k := by
  intro p hp
  rcases hp with hp | hp <;> rcases List.mem_append.mp hp with h | h
  · exact h1 p (Or.inl h)
  · obtain ⟨k, hk1, hk2⟩ := h2 p (Or.inl h)
    exact ⟨k, hk1, le_trans hc hk2⟩
  · exact h1 p (Or.inr h)
  · obtain ⟨k, hk1, hk2⟩ := h2 p (Or.inr h)
    exact ⟨k, hk1, le_trans hc hk2⟩

theorem tmpBound_of_notTmp {c : Nat} {t : List Event}
    (h : ∀ e ∈ t, e.isTmpE = false) :
    ∀ p, (Event.rmtreeE p ∈ t ∨ Event.mkdtempE p ∈ t) →
      ∃ k, p = tmpDir k ∧ c ≤ k := by
  intro p hp
  rcases hp with hp | hp
  · cases h _ hp
  · cases h _ hp

theorem TmpSpec.pure {A : Type} (a : A) : TmpSpec (M.pure a) := by
  intro s
  refine ⟨le_refl _, [], by simp [M.pure], ?_⟩
  intro p hp
  rcases hp with hp | hp <;> cases hp

theorem TmpSpec.throw {A : Type} (e : PyErr) : TmpSpec (M.throw e : M A) := by
  intro s
  refine ⟨le_refl _, [], by simp [M.throw], ?_⟩
  intro p hp
  rcases hp with hp | hp <;> cases hp

theorem TmpSpec.emit (e : Event) (h : e.isTmpE = false) : TmpSpec (M.emit e) := by
  intro s
  refine ⟨le_refl _, [e], rfl, tmpBound_of_notTmp ?_⟩
  intro e' he'
  rw [List.mem_singleton.mp he']
  exact h

theorem TmpSpec.of_quietState {A : Type} (x : M A)
    (hc : ∀ s, s.counter ≤ (x s).2.counter)
    (he : ∀ s, (x s).2.events = s.events) : TmpSpec x := by
  intro s
  refine ⟨hc s, [], by rw [he s, List.append_nil], ?_⟩
  intro p hp
  rcases hp with hp | hp <;> cases hp

theorem TmpSpec.bind {A B : Type} {x : M A} {f : A → M B}
    (hx : TmpSpec x) (hf : ∀ a, TmpSpec (f a)) : TmpSpec (M.bind x f) := by
  intro s
  obtain ⟨hc1, t1, he1, hb1⟩ := hx s
  cases hxs : x s with
  | mk r1 s1 =>
    rw [hxs] at hc1 he1
    cases r1 with
    | error e =>
      rw [M.bind_error hxs]
      exact ⟨hc1, t1, he1, hb1⟩
    | ok a =>
      obtain ⟨hc2, t2, he2, hb2⟩ := hf a s1
      rw [M.bind_ok hxs]
      exact ⟨le_trans hc1 hc2, t1 ++ t2,
        by rw [he2, he1, List.append_assoc], tmpBound_append hb1 hb2 hc1⟩

theorem TmpSpec.tryCatch {A : Type} {x : M A} {h : PyErr → M A}
    (hx : TmpSpec x) (hh : ∀ e, TmpSpec (h e)) : TmpSpec (M.tryCatch x h) := by
  intro s
  obtain ⟨hc1, t1, he1, hb1⟩ := hx s
  cases hxs : x s with
  | mk r1 s1 =>
    rw [hxs] at hc1 he1
    cases r1 with
    | ok a =>
      rw [M.tryCatch_ok hxs]
      exact ⟨hc1, t1, he1, hb1⟩
    | error e =>
      obtain ⟨hc2, t2, he2, hb2⟩ := hh e s1
      rw [M.tryCatch_error hxs]
      exact ⟨le_trans hc1 hc2, t1 ++ t2,
        by rw [he2, he1, List.append_assoc], tmpBound_append hb1 hb2 hc1⟩

theorem TmpSpec.attempt {A B : Type} {x : M A} {k : A → M B} {h : PyErr → M B}
    (hx : TmpSpec x) (hk : ∀ a, TmpSpec (k a)) (hh : ∀ e, TmpSpec (h e)) :
    TmpSpec (M.attempt x k h) := by
  intro s
  obtain ⟨hc1, t1, he1, hb1⟩ := hx s
  cases hxs : x s with
  | mk r1 s1 =>
    rw [hxs] at hc1 he1
    cases r1 with
    | ok a =>
      obtain ⟨hc2, t2, he2, hb2⟩ := hk a s1
      rw [M.attempt_ok hxs]
      exact ⟨le_trans hc1 hc2, t1 ++ t2,
        by rw [he2, he1, List.append_assoc], tmpBound_append hb1 hb2 hc1⟩
    | error e =>
      obtain ⟨hc2, t2, he2, hb2⟩ := hh e s1
      rw [M.attempt_error hxs]
      exact ⟨le_trans hc1 hc2, t1 ++ t2,
        by rw [he2, he1, List.append_assoc], tmpBound_append hb1 hb2 hc1⟩

theorem M.tryFinally_eq {A : Type} (x : M A) (fin : M Unit) (s : St) :
    M.tryFinally x fin s
      = ((match (x s).1, (fin (x s).2).1 with
          | .ok a, .ok _ => .ok a
          | .ok _, .error e2 => .error e2
          | .error e, .ok _ => .error e
          | .error _, .error e2 => .error e2),
         (fin (x s).2).2) := by
  unfold M.tryFinally
  cases hxs : x s with
  | mk r1 s1 =>
    cases hfs : fin s1 with
    | mk r2 s2 =>
      cases r1 <;> cases r2 <;> simp [hxs, hfs]

theorem TmpSpec.tryFinally {A : Type} {x : M A} {fin : M Unit}
    (hx : TmpSpec x) (hf : TmpSpec fin) : TmpSpec (M.tryFinally x fin) := by
  intro s
  obtain ⟨hc1, t1, he1, hb1⟩ := hx s
  obtain ⟨hc2, t2, he2, hb2⟩ := hf (x s).2
  rw [M.tryFinally_eq]
  exact ⟨le_trans hc1 hc2, t1 ++ t2,
    by rw [he2, he1, List.append_assoc], tmpBound_append hb1 hb2 hc1⟩

theorem TmpSpec.mkdtempSpec : TmpSpec mkdtemp := by
  intro s
  refine ⟨Nat.le_succ _, [.mkdtempE (tmpDir s.counter)], rfl, ?_⟩
  intro p hp
  rcases hp with hp | hp
  · cases List.mem_singleton.mp hp
  · have h := List.mem_singleton.mp hp
    injection h with h2
    exact ⟨s.counter, h2, le_refl _⟩

theorem TmpSpec.makedirsSpec (b : Bool) (p : FsPath) : TmpSpec (makedirs b p) := by
  intro s
  unfold makedirs
  split <;>
    exact ⟨le_refl _, [.makedirsE p], rfl, tmpBound_of_notTmp (by
      intro e' he'
      rw [List.mem_singleton.mp he']
      rfl)⟩

theorem TmpSpec.manage {A : Type} (f : Bool) (body : FsPath → M A)
    (hbody : ∀ d, TmpSpec (body d)) : TmpSpec (manage_tmp_dir f body) := by
  intro s
  obtain ⟨hc1, t1, he1, hb1⟩ := hbody (tmpDir s.counter) s.afterMkdtemp
  cases hxs : body (tmpDir s.counter) s.afterMkdtemp with
  | mk r1 s1 =>
    rw [hxs] at hc1 he1
    rw [manage_tmp_dir_run f body s hxs]
    refine ⟨le_trans (Nat.le_succ _) hc1,
      [Event.mkdtempE (tmpDir s.counter)] ++ (t1 ++ [Event.rmtreeE (tmpDir s.counter)]),
      ?_, ?_⟩
    · show s1.events ++ [Event.rmtreeE (tmpDir s.counter)] = _
      rw [he1]
      show (s.events ++ [Event.mkdtempE (tmpDir s.counter)]) ++ t1
        ++ [Event.rmtreeE (tmpDir s.counter)] = _
      simp [List.append_assoc]
    · intro p hp
      have hmem1 : ∀ (hp2 : Event.rmtreeE p ∈ t1 ∨ Event.mkdtempE p ∈ t1),
          ∃ k, p = tmpDir k ∧ s.counter ≤ k := by
        intro hp2
        obtain ⟨k, hk1, hk2⟩ := hb1 p hp2
        exact ⟨k, hk1, le_trans (Nat.le_succ _) hk2⟩
      rcases hp with hp | hp
      · rcases List.mem_append.mp hp with hp4 | hp2
        · cases List.mem_singleton.mp hp4
        · rcases List.mem_append.mp hp2 with hp5 | hp6
          · exact hmem1 (Or.inl hp5)
          · have h := List.mem_singleton.mp hp6
            injection h with h2
            exact ⟨s.counter, h2, le_refl _⟩
      · rcases List.mem_append.mp hp with hp4 | hp2
        · have h := List.mem_singleton.mp hp4
          injection h with h2
          exact ⟨s.counter, h2, le_refl _⟩
        · rcases List.mem_append.mp hp2 with hp5 | hp6
          · exact hmem1 (Or.inr hp5)
          · cases List.mem_singleton.mp hp6

theorem TmpSpec.addFileSpec (fe : FileEntry) : TmpSpec (addFile fe) :=
  TmpSpec.of_quietState _ (fun _ => le_refl _) (fun _ => rfl)

theorem TmpSpec.removeFileSpec (p : FsPath) : TmpSpec (removeFile p) :=
  TmpSpec.of_quietState _ (fun _ => le_refl _) (fun _ => rfl)

theorem TmpSpec.aexistsSpec (p : FsPath) : TmpSpec (aexists p) :=
  TmpSpec.of_quietState _ (fun _ => le_refl _) (fun _ => rfl)

theorem TmpSpec.isdirSpec (p : FsPath) : TmpSpec (isdir p) :=
  TmpSpec.of_quietState _ (fun _ => le_refl _) (fun _ => rfl)

theorem TmpSpec.statSpec (p : FsPath) : TmpSpec (stat p) :=
  TmpSpec.of_quietState _
    (fun s => by unfold stat; split <;> exact le_refl _)
    (fun s => by unfold stat; split <;> rfl)

theorem TmpSpec.unpackSpec (env : Env) (file target : FsPath) :
    TmpSpec (unpack_archive env file target) :=
  TmpSpec.of_quietState _
    (fun s => by unfold unpack_archive; (repeat' split) <;> exact le_refl _)
    (fun s => by unfold unpack_archive; (repeat' split) <;> rfl)

theorem TmpSpec.makeArchiveSpec (env : Env) (bn rd : FsPath) (bd : String) :
    TmpSpec (make_archive env bn rd bd) :=
  TmpSpec.of_quietState _
    (fun s => by unfold make_archive; split <;> exact le_refl _)
    (fun s => by unfold make_archive; split <;> rfl)

theorem TmpSpec.downloadFileSpec (env : Env) (u : String) (tp : FsPath) :
    TmpSpec (download_file_streamed env u tp) := by
  unfold download_file_streamed
  refine TmpSpec.bind (TmpSpec.emit _ rfl) fun _ => ?_
  cases env.dl u with
  | httpError c => exact TmpSpec.throw _
  | midStream m => exact TmpSpec.bind (TmpSpec.addFileSpec _) fun _ => TmpSpec.throw _
  | extractError m => exact TmpSpec.addFileSpec _
  | noGenotype => exact TmpSpec.addFileSpec _
  | ok => exact TmpSpec.addFileSpec _

theorem TmpSpec.uploadSpec (env : Env) (u : String) (sp : FsPath) (ct : String) :
    TmpSpec (upload_file_streamed env u sp ct) := by
  unfold upload_file_streamed
  refine TmpSpec.bind (TmpSpec.statSpec _) fun n => ?_
  refine TmpSpec.bind (TmpSpec.emit _ rfl) fun _ => ?_
  split
  · exact TmpSpec.pure _
  · exact TmpSpec.throw _

theorem TmpSpec.downloadOneSpec (env : Env) (u : String) (td : FsPath) :
    TmpSpec (download_and_unpack_genotype env u td) := by
  unfold download_and_unpack_genotype
  refine TmpSpec.bind
    (TmpSpec.tryFinally
      (TmpSpec.bind (TmpSpec.downloadFileSpec env u _) fun _ => TmpSpec.unpackSpec env _ _)
      (TmpSpec.bind (TmpSpec.aexistsSpec _) fun ex => ?_))
    fun _ => ?_
  · split
    · exact TmpSpec.removeFileSpec _
    · exact TmpSpec.pure _
  · refine TmpSpec.bind (TmpSpec.isdirSpec _) fun ok => ?_
    split
    · exact TmpSpec.pure _
    · exact TmpSpec.throw _

theorem runAll_TmpSpec {A : Type} (ts : List (M A)) (h : ∀ t ∈ ts, TmpSpec t) :
    ∀ s : St, s.counter ≤ (runAll ts s).2.counter ∧
      ∃ tr, (runAll ts s).2.events = s.events ++ tr ∧
        ∀ p, (Event.rmtreeE p ∈ tr ∨ Event.mkdtempE p ∈ tr) →
          ∃ k, p = tmpDir k ∧ s.counter ≤ k := by
  induction ts with
  | nil =>
    intro s
    refine ⟨le_refl _, [], by simp [runAll], ?_⟩
    intro p hp
    rcases hp with hp | hp <;> cases hp
  | cons t ts ih =>
    intro s
    obtain ⟨hc1, t1, he1, hb1⟩ := h t (List.mem_cons_self t ts) s
    obtain ⟨hc2, t2, he2, hb2⟩ :=
      ih (fun x hx => h x (List.mem_cons_of_mem _ hx)) (t s).2
    refine ⟨le_trans hc1 hc2, t1 ++ t2, ?_, tmpBound_append hb1 hb2 hc1⟩
    show (runAll ts (t s).2).2.events = _
    rw [he2, he1, List.append_assoc]

theorem TmpSpec.gather {A : Type} (ts : List (M A)) (h : ∀ t ∈ ts, TmpSpec t) :
    TmpSpec (asyncio_gather ts) := by
  intro s
  obtain ⟨hc, tr, he, hb⟩ := runAll_TmpSpec ts h s
  exact ⟨hc, tr, he, hb⟩

theorem TmpSpec.downloadsSpec (env : Env) (l : List (String × FsPath)) :
    TmpSpec (download_and_unpack_genotypes env l) := by
  unfold download_and_unpack_genotypes
  refine TmpSpec.gather _ ?_
  intro t ht
  obtain ⟨pr, _, hpr⟩ := List.mem_map.mp ht
  rw [← hpr]
  exact TmpSpec.downloadOneSpec env pr.1 pr.2

theorem TmpSpec.packOneSpec (env : Env) (f : Bool) (sd : FsPath) (pu : String) :
    TmpSpec (pack_and_upload_genotype env f sd pu) := by
  unfold pack_and_upload_genotype
  refine TmpSpec.manage f _ fun d => ?_
  exact TmpSpec.bind (TmpSpec.makeArchiveSpec env _ _ _) fun ap =>
    TmpSpec.uploadSpec env _ _ _

theorem TmpSpec.packsSpec (env : Env) (f : Bool) (l : List (FsPath × String)) :
    TmpSpec (pack_and_upload_genotypes env f l) := by
  unfold pack_and_upload_genotypes
  refine TmpSpec.bind (TmpSpec.gather _ ?_) fun _ => TmpSpec.pure _
  intro t ht
  obtain ⟨pr, _, hpr⟩ := List.mem_map.mp ht
  rw [← hpr]
  exact TmpSpec.packOneSpec env f pr.1 pr.2

theorem TmpSpec.moduleInitSpec (env : Env) (m : List (String × FsPath)) :
    TmpSpec (module_initialize_call env m) := by
  unfold module_initialize_call
  refine TmpSpec.bind (TmpSpec.emit _ rfl) fun _ => ?_
  cases env.moduleInitialize m with
  | ok u => exact TmpSpec.pure _
  | error e => exact TmpSpec.throw _

theorem TmpSpec.moduleGenSpec (env : Env) (pd cd : List FsPath) :
    TmpSpec (module_generate_call env pd cd) := by
  unfold module_generate_call
  refine TmpSpec.bind (TmpSpec.emit _ rfl) fun _ => ?_
  cases env.moduleGenerate pd cd with
  | ok pg => exact TmpSpec.pure _
  | error e => exact TmpSpec.throw _

theorem TmpSpec.writePhenDirSpec (env : Env) (d : FsPath) :
    ∀ l, TmpSpec (writePhenDir env d l) := by
  intro l
  induction l with
  | nil => exact TmpSpec.pure _
  | cons kv rest ih =>
    obtain ⟨k0, fc⟩ := kv
    refine TmpSpec.bind ?_ fun _ => ih
    cases env.phen d fc.name with
    | some n => exact TmpSpec.addFileSpec _
    | none => exact TmpSpec.pure _

theorem TmpSpec.writePhenFilesSpec (env : Env) (config : Config) :
    ∀ ds, TmpSpec (writePhenFiles env config ds) := by
  intro ds
  induction ds with
  | nil => exact TmpSpec.pure _
  | cons d rest ih =>
    exact TmpSpec.bind (TmpSpec.writePhenDirSpec env d _) fun _ => ih

theorem TmpSpec.moduleEvalSpec (env : Env) (gd pd : List FsPath) (config : Config) :
    TmpSpec (module_evaluate_call env gd pd config) := by
  unfold module_evaluate_call
  refine TmpSpec.bind (TmpSpec.emit _ rfl) fun _ => ?_
  cases env.moduleEvaluate gd pd with
  | ok u => exact TmpSpec.writePhenFilesSpec env config pd
  | error e => exact TmpSpec.throw _

theorem TmpSpec.initMkDirsSpec (d : FsPath) :
    ∀ l, TmpSpec (initMkDirs d l) := by
  intro l
  induction l with
  | nil => exact TmpSpec.pure _
  | cons ind rest ih =>
    exact TmpSpec.bind (TmpSpec.makedirsSpec _ _) fun _ =>
      TmpSpec.bind ih fun m => TmpSpec.pure _

theorem TmpSpec.genParentMkDirsSpec (d : FsPath) :
    ∀ l, TmpSpec (genParentMkDirs d l) := by
  intro l
  induction l with
  | nil => exact TmpSpec.pure _
  | cons ind rest ih =>
    exact TmpSpec.bind (TmpSpec.makedirsSpec _ _) fun _ =>
      TmpSpec.bind ih fun m => TmpSpec.pure _

theorem TmpSpec.genChildMkDirsSpec (d : FsPath) :
    ∀ l, TmpSpec (genChildMkDirs d l) := by
  intro l
  induction l with
  | nil => exact TmpSpec.pure _
  | cons ind rest ih =>
    exact TmpSpec.bind (TmpSpec.makedirsSpec _ _) fun _ =>
      TmpSpec.bind ih fun m => TmpSpec.pure _

theorem TmpSpec.evalMkDirsSpec (d : FsPath) :
    ∀ l, TmpSpec (evalMkDirs d l) := by
  intro l
  induction l with
  | nil => exact TmpSpec.pure _
  | cons ind rest ih =>
    exact TmpSpec.bind (TmpSpec.makedirsSpec _ _) fun _ =>
      TmpSpec.bind ih fun m => TmpSpec.pure _

theorem TmpSpec.evalPrepSpec : ∀ l, TmpSpec (evalPrep l) := by
  intro l
  induction l with
  | nil => exact TmpSpec.pure _
  | cons pr rest ih =>
    obtain ⟨ind, gd⟩ := pr
    exact TmpSpec.bind (TmpSpec.makedirsSpec _ _) fun _ =>
      TmpSpec.bind ih fun r => TmpSpec.pure _

theorem TmpSpec.compileResponsesSpec (statuses : List (String × EvaluateIndividualOutput)) :
    ∀ l, TmpSpec (compileResponses statuses l) := by
  intro l
  induction l with
  | nil => exact TmpSpec.pure _
  | cons ind rest ih =>
    show TmpSpec (match alookup statuses ind.id with
      | some out => M.bind (compileResponses statuses rest) fun outs => M.pure (out :: outs)
      | none => M.throw (.keyError ind.id))
    cases alookup statuses ind.id with
    | some out => exact TmpSpec.bind ih fun outs => TmpSpec.pure _
    | none => exact TmpSpec.throw _

theorem phenTaskList_TmpSpec (env : Env) (d : FsPath) (urls : List (String × String))
    (files : List FileEntry) :
    ∀ l, ∀ t ∈ phenTaskList env d urls files l, TmpSpec t := by
  intro l
  induction l with
  | nil => intro t ht; cases ht
  | cons kv rest ih =>
    obtain ⟨key, fc⟩ := kv
    intro t ht
    simp only [phenTaskList] at ht
    cases halk : alookup urls key with
    | none =>
      simp only [halk] at ht
      exact ih t ht
    | some url =>
      simp only [halk] at ht
      by_cases hany : (files.any fun x => x.path == d ++ [fc.name]) = true
      · rw [if_pos hany] at ht
        rcases List.mem_cons.mp ht with rfl | ht2
        · exact TmpSpec.uploadSpec env _ _ _
        · exact ih t ht2
      · rw [if_neg hany] at ht
        exact ih t ht

theorem TmpSpec.uploadPhenSpec (env : Env) (d : FsPath) (urls : List (String × String))
    (config : Config) : TmpSpec (upload_phenotype env d urls config) := by
  intro s
  have hb := buildPhenTasks_eq env d urls config.evaluate.phenotype s
  have hrun : upload_phenotype env d urls config s
      = (if (phenTaskList env d urls s.files config.evaluate.phenotype).isEmpty
         then M.pure ()
         else M.bind
           (asyncio_gather (phenTaskList env d urls s.files config.evaluate.phenotype))
           fun _ => M.pure ()) s := by
    unfold upload_phenotype
    rw [M.bind_ok hb]
  rw [hrun]
  have hts := phenTaskList_TmpSpec env d urls s.files config.evaluate.phenotype
  split
  · exact (TmpSpec.pure ()) s
  · exact (TmpSpec.bind (TmpSpec.gather _ hts) fun _ => TmpSpec.pure ()) s

theorem TmpSpec.uploadPhensSpec (env : Env)
    (l : List (FsPath × List (String × String))) (config : Config) :
    TmpSpec (upload_phenotypes env l config) := by
  show TmpSpec
    (if (l.map fun pr => upload_phenotype env pr.1 pr.2 config).isEmpty then M.pure ()
     else M.bind
       (asyncio_gather (l.map fun pr => upload_phenotype env pr.1 pr.2 config))
       fun _ => M.pure ())
  split
  · exact TmpSpec.pure _
  · refine TmpSpec.bind (TmpSpec.gather _ ?_) fun _ => TmpSpec.pure _
    intro t ht
    obtain ⟨pr, _, hpr⟩ := List.mem_map.mp ht
    rw [← hpr]
    exact TmpSpec.uploadPhenSpec env pr.1 pr.2 config

theorem TmpSpec.initBlockSpec (env : Env) (f : Bool) (req : InitializeRequest)
    (d : FsPath) : TmpSpec (initialize_with_block env f req d) := by
  unfold initialize_with_block
  refine TmpSpec.tryCatch ?_ fun e => TmpSpec.throw _
  refine TmpSpec.bind (TmpSpec.initMkDirsSpec d _) fun m => ?_
  refine TmpSpec.bind (TmpSpec.moduleInitSpec env _) fun _ => ?_
  exact TmpSpec.packsSpec env f _

theorem TmpSpec.genBlockSpec (env : Env) (f : Bool) (req : GenerateRequest)
    (d : FsPath) : TmpSpec (generate_with_block env f req d) := by
  unfold generate_with_block
  refine TmpSpec.tryCatch ?_ fun e => TmpSpec.throw _
  refine TmpSpec.bind (TmpSpec.genParentMkDirsSpec d _) fun pairs => ?_
  refine TmpSpec.bind (TmpSpec.downloadsSpec env _) fun dr => ?_
  refine TmpSpec.bind (TmpSpec.genChildMkDirsSpec d _) fun cm => ?_
  refine TmpSpec.bind (TmpSpec.moduleGenSpec env _ _) fun pg => ?_
  exact TmpSpec.bind (TmpSpec.packsSpec env f _) fun _ => TmpSpec.pure _

theorem TmpSpec.evalBlockSpec (env : Env) (req : EvaluateRequest) (config : Config)
    (d : FsPath) : TmpSpec (evaluate_with_block env req config d) := by
  unfold evaluate_with_block
  refine TmpSpec.tryCatch ?_ fun e => TmpSpec.pure _
  refine TmpSpec.bind (TmpSpec.evalMkDirsSpec d _) fun pairs => ?_
  refine TmpSpec.bind (TmpSpec.downloadsSpec env _) fun dr => ?_
  refine TmpSpec.bind (TmpSpec.evalPrepSpec _) fun prep => ?_
  refine TmpSpec.bind ?_ fun st1 =>
    TmpSpec.bind (TmpSpec.compileResponsesSpec _ _) fun fr => TmpSpec.pure _
  split
  · exact TmpSpec.pure _
  · refine TmpSpec.bind (TmpSpec.moduleEvalSpec env _ _ _) fun _ => ?_
    refine TmpSpec.bind (TmpSpec.uploadPhensSpec env _ _) fun _ => ?_
    exact TmpSpec.pure _

theorem countEv_append (e : Event) (l1 l2 : List Event) :
    countEv e (l1 ++ l2) = countEv e l1 + countEv e l2 := by
  unfold countEv
  rw [List.filter_append, List.length_append]

theorem countEv_eq_zero {e : Event} {l : List Event} (h : e ∉ l) : countEv e l = 0 := by
  unfold countEv
  rw [List.length_eq_zero, List.filter_eq_nil_iff]
  intro a ha hbeq
  exact h (by rwa [beq_iff_eq.mp hbeq] at ha)

theorem countEv_singleton (e : Event) : countEv e [e] = 1 := by
  simp [countEv]

/-- The heart of C3: running any `TmpSpec` body under `manage_tmp_dir` adds
exactly one creation and exactly one removal of the entry-counter workspace to
the trace, whatever the body does and whether or not the removal would fail. -/
theorem manage_tmp_dir_once {A : Type} (f : Bool) (body : FsPath → M A)
    (hbody : ∀ d, TmpSpec (body d)) (s : St) :
    countEv (.mkdtempE (tmpDir s.counter)) (manage_tmp_dir f body s).2.events
        = countEv (.mkdtempE (tmpDir s.counter)) s.events + 1 ∧
      countEv (.rmtreeE (tmpDir s.counter)) (manage_tmp_dir f body s).2.events
        = countEv (.rmtreeE (tmpDir s.counter)) s.events + 1 := by
  obtain ⟨hc1, t1, he1, hb1⟩ := hbody (tmpDir s.counter) s.afterMkdtemp
  cases hxs : body (tmpDir s.counter) s.afterMkdtemp with
  | mk r1 s1 =>
    rw [hxs] at he1
    rw [manage_tmp_dir_run f body s hxs]
    have hnot1 : Event.mkdtempE (tmpDir s.counter) ∉ t1 := by
      intro hmem
      obtain ⟨k, hk1, hk2⟩ := hb1 _ (Or.inr hmem)
      have hk3 := tmpDir_inj hk1
      have hk2' : s.counter + 1 ≤ k := hk2
      omega
    have hnot2 : Event.rmtreeE (tmpDir s.counter) ∉ t1 := by
      intro hmem
      obtain ⟨k, hk1, hk2⟩ := hb1 _ (Or.inl hmem)
      have hk3 := tmpDir_inj hk1
      have hk2' : s.counter + 1 ≤ k := hk2
      omega
    have hev : (s1.afterRmtree (tmpDir s.counter)).events
        = s.events ++ ([Event.mkdtempE (tmpDir s.counter)] ++ t1
            ++ [Event.rmtreeE (tmpDir s.counter)]) := by
      show s1.events ++ [Event.rmtreeE (tmpDir s.counter)] = _
      rw [he1]
      show (s.events ++ [Event.mkdtempE (tmpDir s.counter)]) ++ t1
        ++ [Event.rmtreeE (tmpDir s.counter)] = _
      simp [List.append_assoc]
    rw [hev]
    constructor
    · rw [countEv_append, countEv_append, countEv_append, countEv_singleton,
        countEv_eq_zero hnot1,
        countEv_eq_zero (show Event.mkdtempE (tmpDir s.counter)
          ∉ [Event.rmtreeE (tmpDir s.counter)] by simp)]
    · rw [countEv_append, countEv_append, countEv_append, countEv_singleton,
        countEv_eq_zero hnot2,
        countEv_eq_zero (show Event.rmtreeE (tmpDir s.counter)
          ∉ [Event.mkdtempE (tmpDir s.counter)] by simp)]

theorem StatePres.pureSpec {A : Type} (a : A) : StatePres (M.pure a) := fun _ => rfl

theorem StatePres.throwSpec {A : Type} (e : PyErr) : StatePres (M.throw e : M A) := fun _ => rfl

theorem StatePres.bindSpec {A B : Type} {x : M A} {f : A → M B}
    (hx : StatePres x) (hf : ∀ a, StatePres (f a)) : StatePres (M.bind x f) := by
  intro s
  cases hxs : x s with
  | mk r1 s1 =>
    have hs1 : s1 = s := by
      have h := hx s
      rw [hxs] at h
      exact h
    cases r1 with
    | error e =>
      rw [M.bind_error hxs]
      exact hs1
    | ok a =>
      rw [M.bind_ok hxs, hf a s1]
      exact hs1

theorem StatePres.pyIndexSpec {A : Type} (l : List A) (i : Nat) :
    StatePres (pyIndex l i) := by
  intro s
  unfold pyIndex
  split <;> rfl

theorem StatePres.mapPyIndexSpec (l : List String) :
    ∀ ps, StatePres (mapPyIndex l ps) := by
  intro ps
  induction ps with
  | nil => exact StatePres.pureSpec _
  | cons p rest ih =>
    exact StatePres.bindSpec (StatePres.pyIndexSpec _ _) fun x =>
      StatePres.bindSpec ih fun r => StatePres.pureSpec _

theorem StatePres.buildGenOutsSpec (pids : List String) (pg : List (List Nat)) :
    ∀ (cs : List GenerateChildIndividualInput) (i : Nat),
      StatePres (buildGenOuts pids pg i cs) := by
  intro cs
  induction cs with
  | nil => intro i; exact StatePres.pureSpec _
  | cons c rest ih =>
    intro i
    exact StatePres.bindSpec (StatePres.pyIndexSpec _ _) fun idxs =>
      StatePres.bindSpec (StatePres.mapPyIndexSpec _ _) fun ps =>
        StatePres.bindSpec (ih (i + 1)) fun outs => StatePres.pureSpec _

/-- Running a `TmpSpec` body under `manage_tmp_dir` and continuing with a
state-preserving step: the whole pipeline's trace gains exactly one creation
and one removal of the entry-counter workspace. -/
theorem manage_bind_once {A B : Type} (f : Bool) (body : FsPath → M A)
    (hbody : ∀ d, TmpSpec (body d)) (s : St) (k : A → M B)
    (hk : ∀ a, StatePres (k a)) :
    countEv (.mkdtempE (tmpDir s.counter)) ((M.bind (manage_tmp_dir f body) k) s).2.events
        = countEv (.mkdtempE (tmpDir s.counter)) s.events + 1 ∧
      countEv (.rmtreeE (tmpDir s.counter)) ((M.bind (manage_tmp_dir f body) k) s).2.events
        = countEv (.rmtreeE (tmpDir s.counter)) s.events + 1 := by
  obtain ⟨h1, h2⟩ := manage_tmp_dir_once f body hbody s
  cases hm : manage_tmp_dir f body s with
  | mk r s' =>
    rw [hm] at h1 h2
    cases r with
    | error e =>
      rw [M.bind_error hm]
      exact ⟨h1, h2⟩
    | ok a =>
      rw [M.bind_ok hm, hk a s']
      exact ⟨h1, h2⟩

/-- `shutil.rmtree(..., ignore_errors=True)` behaves identically whether or
not the underlying deletion would fail: the error is swallowed. -/
theorem rmtree_true_ignores (f : Bool) (p : FsPath) :
    rmtree true f p = rmtree true false p := by
  cases f <;> rfl

theorem manage_tmp_dir_ignores {A : Type} (f : Bool) (body : FsPath → M A) :
    manage_tmp_dir f body = manage_tmp_dir false body := by
  unfold manage_tmp_dir
  have h : ∀ d, rmtree true f d = rmtree true false d := fun d => rmtree_true_ignores f d
  simp only [h]

theorem pack_one_ignores (env : Env) (f : Bool) (sd : FsPath) (pu : String) :
    pack_and_upload_genotype env f sd pu = pack_and_upload_genotype env false sd pu := by
  unfold pack_and_upload_genotype
  rw [manage_tmp_dir_ignores]

theorem packs_ignores (env : Env) (f : Bool) (l : List (FsPath × String)) :
    pack_and_upload_genotypes env f l = pack_and_upload_genotypes env false l := by
  unfold pack_and_upload_genotypes
  have h : ∀ sd pu, pack_and_upload_genotype env f sd pu
      = pack_and_upload_genotype env false sd pu :=
    fun sd pu => pack_one_ignores env f sd pu
  simp only [h]

theorem generate_with_block_ignores (env : Env) (f : Bool) (req : GenerateRequest) :
    generate_with_block env f req = generate_with_block env false req := by
  unfold generate_with_block
  have h : ∀ l, pack_and_upload_genotypes env f l = pack_and_upload_genotypes env false l :=
    fun l => packs_ignores env f l
  simp only [h]

theorem initialize_with_block_ignores (env : Env) (f : Bool) (req : InitializeRequest) :
    initialize_with_block env f req = initialize_with_block env false req := by
  unfold initialize_with_block
  have h : ∀ l, pack_and_upload_genotypes env f l = pack_and_upload_genotypes env false l :=
    fun l => packs_ignores env f l
  simp only [h]

theorem handle_generate_ignores (env : Env) (f : Bool) (req : GenerateRequest) :
    handle_generate env f req = handle_generate env false req := by
  unfold handle_generate
  have h1 : ∀ (body : FsPath → M (List (List Nat))),
      manage_tmp_dir f body = manage_tmp_dir false body :=
    fun body => manage_tmp_dir_ignores f body
  have h2 : generate_with_block env f req = generate_with_block env false req :=
    generate_with_block_ignores env f req
  simp only [h2, h1]

theorem handle_initialize_ignores (env : Env) (f : Bool) (req : InitializeRequest) :
    handle_initialize_route env f req = handle_initialize_route env false req := by
  unfold handle_initialize_route
  have h1 : ∀ (body : FsPath → M Unit),
      manage_tmp_dir f body = manage_tmp_dir false body :=
    fun body => manage_tmp_dir_ignores f body
  have h2 : initialize_with_block env f req = initialize_with_block env false req :=
    initialize_with_block_ignores env f req
  simp only [h2, h1]

theorem handle_evaluate_ignores (env : Env) (f : Bool) (req : EvaluateRequest) :
    handle_evaluate env f req = handle_evaluate env false req := by
  unfold handle_evaluate
  have h1 : ∀ (body : FsPath → M EvaluateResponse),
      manage_tmp_dir f body = manage_tmp_dir false body :=
    fun body => manage_tmp_dir_ignores f body
  simp only [h1]

/-- C3.  For each of the three handlers, once the request reaches the
workspace stage (config loads; for initialize the root keys also match), the
run's event trace records exactly one `mkdtemp` creation and exactly one
recursive `rmtree` removal of the per-request workspace `tmpDir 0`, whatever
the store, the module, and every later stage do (any failure included), and
whether or not the removal itself would fail; and each handler's behaviour is
identical whether or not cleanup fails, so a deletion failure is never raised
or propagated to the caller. -/
theorem workspace_released_exactly_once (env : Env) (f : Bool)
    (reqI : InitializeRequest) (reqG : GenerateRequest) (reqE : EvaluateRequest)
    (cfgI cfgG cfgE : Config)
    (hcI : env.moduleConfigResult reqI.config_name = .ok cfgI)
    (hkeys : (cfgI.initialize_.root_individuals.map Prod.fst).toFinset
        = (reqI.root_individuals.map (·.key)).toFinset)
    (hcG : env.moduleConfigResult reqG.config_name = .ok cfgG)
    (hcE : env.moduleConfigResult reqE.config_name = .ok cfgE) :
    (countEv (.mkdtempE (tmpDir 0)) (handle_initialize_route env f reqI St.init).2.events = 1
      ∧ countEv (.rmtreeE (tmpDir 0)) (handle_initialize_route env f reqI St.init).2.events = 1)
    ∧ (countEv (.mkdtempE (tmpDir 0)) (handle_generate env f reqG St.init).2.events = 1
      ∧ countEv (.rmtreeE (tmpDir 0)) (handle_generate env f reqG St.init).2.events = 1)
    ∧ (countEv (.mkdtempE (tmpDir 0)) (handle_evaluate env f reqE St.init).2.events = 1
      ∧ countEv (.rmtreeE (tmpDir 0)) (handle_evaluate env f reqE St.init).2.events = 1)
    ∧ handle_initialize_route env f reqI = handle_initialize_route env false reqI
    ∧ handle_generate env f reqG = handle_generate env false reqG
    ∧ handle_evaluate env f reqE = handle_evaluate env false reqE := by
  refine ⟨?_, ?_, ?_, handle_initialize_ignores env f reqI,
    handle_generate_ignores env f reqG, handle_evaluate_ignores env f reqE⟩
  · have hcfg : get_config_from_request env reqI.config_name St.init
        = (.ok cfgI, ⟨0, [], [], [], [Event.moduleConfig reqI.config_name]⟩) := by
      rw [get_config_ok env reqI.config_name cfgI St.init hcI]
      rfl
    have honce : (countEv (.mkdtempE (tmpDir 0))
          ((M.bind (manage_tmp_dir f (initialize_with_block env f reqI))
            (fun _ => M.pure ({ root_individuals := reqI.root_individuals.map fun ind =>
              { id := ind.id, parent_ids := [] } } : InitializeResponse)))
            ⟨0, [], [], [], [Event.moduleConfig reqI.config_name]⟩).2.events
        = countEv (.mkdtempE (tmpDir 0)) [Event.moduleConfig reqI.config_name] + 1)
        ∧ countEv (.rmtreeE (tmpDir 0))
          ((M.bind (manage_tmp_dir f (initialize_with_block env f reqI))
            (fun _ => M.pure ({ root_individuals := reqI.root_individuals.map fun ind =>
              { id := ind.id, parent_ids := [] } } : InitializeResponse)))
            ⟨0, [], [], [], [Event.moduleConfig reqI.config_name]⟩).2.events
        = countEv (.rmtreeE (tmpDir 0)) [Event.moduleConfig reqI.config_name] + 1 :=
      manage_bind_once f (initialize_with_block env f reqI)
        (TmpSpec.initBlockSpec env f reqI)
        ⟨0, [], [], [], [Event.moduleConfig reqI.config_name]⟩ _
        (fun a => StatePres.pureSpec _)
    unfold handle_initialize_route
    simp only [M.bind_ok hcfg]
    rw [if_neg (not_not_intro hkeys)]
    constructor
    · rw [honce.1, countEv_eq_zero (show Event.mkdtempE (tmpDir 0)
        ∉ [Event.moduleConfig reqI.config_name] by simp)]
    · rw [honce.2, countEv_eq_zero (show Event.rmtreeE (tmpDir 0)
        ∉ [Event.moduleConfig reqI.config_name] by simp)]
  · have hcfg : get_config_from_request env reqG.config_name St.init
        = (.ok cfgG, ⟨0, [], [], [], [Event.moduleConfig reqG.config_name]⟩) := by
      rw [get_config_ok env reqG.config_name cfgG St.init hcG]
      rfl
    have honce : (countEv (.mkdtempE (tmpDir 0))
          ((M.bind (manage_tmp_dir f (generate_with_block env f reqG))
            (fun pg => M.bind (buildGenOuts (reqG.parent_individuals.map (·.id)) pg 0
                reqG.child_individuals) fun outs =>
              M.pure ({ child_individuals := outs } : GenerateResponse)))
            ⟨0, [], [], [], [Event.moduleConfig reqG.config_name]⟩).2.events
        = countEv (.mkdtempE (tmpDir 0)) [Event.moduleConfig reqG.config_name] + 1)
        ∧ countEv (.rmtreeE (tmpDir 0))
          ((M.bind (manage_tmp_dir f (generate_with_block env f reqG))
            (fun pg => M.bind (buildGenOuts (reqG.parent_individuals.map (·.id)) pg 0
                reqG.child_individuals) fun outs =>
              M.pure ({ child_individuals := outs } : GenerateResponse)))
            ⟨0, [], [], [], [Event.moduleConfig reqG.config_name]⟩).2.events
        = countEv (.rmtreeE (tmpDir 0)) [Event.moduleConfig reqG.config_name] + 1 :=
      manage_bind_once f (generate_with_block env f reqG)
        (TmpSpec.genBlockSpec env f reqG)
        ⟨0, [], [], [], [Event.moduleConfig reqG.config_name]⟩ _
        (fun pg => StatePres.bindSpec (StatePres.buildGenOutsSpec _ _ _ _) fun outs =>
          StatePres.pureSpec _)
    unfold handle_generate
    simp only [M.bind_ok (M.tryCatch_ok hcfg)]
    constructor
    · rw [honce.1, countEv_eq_zero (show Event.mkdtempE (tmpDir 0)
        ∉ [Event.moduleConfig reqG.config_name] by simp)]
    · rw [honce.2, countEv_eq_zero (show Event.rmtreeE (tmpDir 0)
        ∉ [Event.moduleConfig reqG.config_name] by simp)]
  · have hcfg : get_config_from_request env reqE.config_name St.init
        = (.ok cfgE, ⟨0, [], [], [], [Event.moduleConfig reqE.config_name]⟩) := by
      rw [get_config_ok env reqE.config_name cfgE St.init hcE]
      rfl
    have honce : (countEv (.mkdtempE (tmpDir 0))
          ((manage_tmp_dir f (evaluate_with_block env reqE cfgE))
            ⟨0, [], [], [], [Event.moduleConfig reqE.config_name]⟩).2.events
        = countEv (.mkdtempE (tmpDir 0)) [Event.moduleConfig reqE.config_name] + 1)
        ∧ countEv (.rmtreeE (tmpDir 0))
          ((manage_tmp_dir f (evaluate_with_block env reqE cfgE))
            ⟨0, [], [], [], [Event.moduleConfig reqE.config_name]⟩).2.events
        = countEv (.rmtreeE (tmpDir 0)) [Event.moduleConfig reqE.config_name] + 1 :=
      manage_tmp_dir_once f (evaluate_with_block env reqE cfgE)
        (TmpSpec.evalBlockSpec env reqE cfgE)
        ⟨0, [], [], [], [Event.moduleConfig reqE.config_name]⟩
    unfold handle_evaluate
    simp only [M.attempt_ok hcfg]
    constructor
    · rw [honce.1, countEv_eq_zero (show Event.mkdtempE (tmpDir 0)
        ∉ [Event.moduleConfig reqE.config_name] by simp)]
    · rw [honce.2, countEv_eq_zero (show Event.rmtreeE (tmpDir 0)
        ∉ [Event.moduleConfig reqE.config_name] by simp)]

theorem workspace_released_exactly_once_witness :
    ((countEv (.mkdtempE (tmpDir 0))
        (handle_initialize_route envC8 true reqC3 St.init).2.events = 1
      ∧ countEv (.rmtreeE (tmpDir 0))
        (handle_initialize_route envC8 true reqC3 St.init).2.events = 1)
    ∧ (countEv (.mkdtempE (tmpDir 0)) (handle_generate envC8 true reqC6 St.init).2.events = 1
      ∧ countEv (.rmtreeE (tmpDir 0)) (handle_generate envC8 true reqC6 St.init).2.events = 1)
    ∧ (countEv (.mkdtempE (tmpDir 0)) (handle_evaluate envC8 true reqC2 St.init).2.events = 1
      ∧ countEv (.rmtreeE (tmpDir 0)) (handle_evaluate envC8 true reqC2 St.init).2.events = 1)
    ∧ handle_initialize_route envC8 true reqC3 = handle_initialize_route envC8 false reqC3
    ∧ handle_generate envC8 true reqC6 = handle_generate envC8 false reqC6
    ∧ handle_evaluate envC8 true reqC2 = handle_evaluate envC8 false reqC2) :=
  workspace_released_exactly_once envC8 true reqC3 reqC6 reqC2 cfg0 cfg0 cfg0
    (by decide) (by decide) (by decide) (by decide)
